import Mathlib

/-!
Shallow embedding of the Kvik client core (gokvik/kvik) in Lean 4,
together with theorems settling the frozen claims about it.

Conventions of the embedding:
* C++ `uint16_t` values are `Nat`s reduced modulo `2^16 = 65536` at the
  points where the C++ type system truncates; promoted `int` arithmetic
  (as in `validateMsgTimestamp`) is carried out on `Int`.
* `std::chrono` time points and durations are modeled as nonnegative
  millisecond counts (`Nat`); the steady-clock reading plus the peer's
  `tsDiff` is passed in as a single nonnegative parameter.
* `std::unordered_map` / `std::map` containers are modeled as association
  lists; `std::set` as lists.  Only membership and emptiness of these
  containers are observed by the verified operations.
* Effects (local-layer sends, user-callback invocations) are returned as
  explicit event lists; external inputs (send results, arrived responses)
  are explicit oracle parameters.
-/

namespace Kvik

/-- Error codes (`errors.hpp`). -/
inductive ErrCode where
  | SUCCESS
  | GENERIC_FAILURE
  | INVALID_ARG
  | INVALID_SIZE
  | NOT_FOUND
  | NOT_SUPPORTED
  | TIMEOUT
  | TOO_MANY_FAILED_ATTEMPTS
  | NO_GATEWAY
  | MSG_DUP_ID
  | MSG_INVALID_TS
  | MSG_PROCESSING_FAILED
  | MSG_UNKNOWN_SENDER
  deriving DecidableEq, Repr

/-- Local message types (`local_msg.hpp`). -/
inductive LocalMsgType where
  | NONE
  | OK
  | FAIL
  | PROBE_REQ
  | PROBE_RES
  | PUB_SUB_UNSUB
  | SUB_DATA
  deriving DecidableEq, Repr

/-- Node types (`node_types.hpp`). -/
inductive NodeType where
  | UNKNOWN
  | CLIENT
  | GATEWAY
  | RELAY
  deriving DecidableEq, Repr

/-- `LocalAddr`: an opaque byte vector (`local_addr.hpp`). -/
abbrev LocalAddr := List Nat

/-- `PubData` (`pub_sub_struct.hpp`). -/
structure PubData where
  topic : String
  payload : String
  deriving DecidableEq, Repr

/-- `SubData` (`pub_sub_struct.hpp`). -/
structure SubData where
  topic : String
  payload : String
  deriving DecidableEq, Repr

/-! ## Expiring message-ID cache (`local_msg_id_cache.cpp`)

`m_cache : unordered_map<LocalAddr, map<uint16_t tick, set<uint16_t id>>>`
is modeled as an association list from addresses to bucket lists, each
bucket an `(expiry tick, ids)` pair. -/

/-- Association-list lookup, mirroring `std::unordered_map::find`. -/
def assocGet {α β : Type} [DecidableEq α] : List (α × β) → α → Option β
  | [], _ => none
  | (k, v) :: rest, a => if k = a then some v else assocGet rest a

/-- Association-list update: replaces the value stored at `a`, creating
the entry when absent (mirrors mutation through `map::operator[]` /
`map::at`). -/
def assocSet {α β : Type} [DecidableEq α] : List (α × β) → α → β →
    List (α × β)
  | [], a, v => [(a, v)]
  | (k, v₀) :: rest, a, v =>
      if k = a then (k, v) :: rest else (k, v₀) :: assocSet rest a v

/-- Association-list removal of the entry keyed `a` (mirrors
`map::erase`). -/
def assocErase {α β : Type} [DecidableEq α] : List (α × β) → α →
    List (α × β)
  | [], _ => []
  | (k, v₀) :: rest, a =>
      if k = a then rest else (k, v₀) :: assocErase rest a

/-- Adds `i` to the bucket keyed `exp` (creating the bucket if absent),
mirroring `m_cache[addr][expTickNum].insert(id)`. -/
def addIdToBuckets : List (Nat × List Nat) → Nat → Nat → List (Nat × List Nat)
  | [], exp, i => [(exp, [i])]
  | (e, ids) :: rest, exp, i =>
      if e = exp then (e, i :: ids) :: rest
      else (e, ids) :: addIdToBuckets rest exp i

/-- State of `LocalMsgIdCache`: the tick counter and the nested map. -/
structure LocalMsgIdCache where
  maxAge : Nat
  tickNum : Nat
  cache : List (LocalAddr × List (Nat × List Nat))
  deriving DecidableEq, Repr

namespace LocalMsgIdCache

/-- Whether some bucket of `addr` with expiry tick `e` contains `i`. -/
def memBucket (c : LocalMsgIdCache) (addr : LocalAddr) (e i : Nat) : Bool :=
  ((assocGet c.cache addr).getD []).any (fun b => b.1 = e && b.2.contains i)

/-- Whether any bucket of `addr` contains `i` (the duplicate test of
`LocalMsgIdCache::insert`). -/
def mem (c : LocalMsgIdCache) (addr : LocalAddr) (i : Nat) : Bool :=
  ((assocGet c.cache addr).getD []).any (fun b => b.2.contains i)

/-- `LocalMsgIdCache::insert`: fails iff `i` is present in any bucket of
`addr`; otherwise stores `i` in the bucket expiring at
`tickNum + maxAge + 1`. -/
def insert (c : LocalMsgIdCache) (addr : LocalAddr) (i : Nat) :
    Bool × LocalMsgIdCache :=
  let expTickNum := c.tickNum + c.maxAge + 1
  let buckets := (assocGet c.cache addr).getD []
  if buckets.any (fun b => b.2.contains i) then
    (false, c)
  else
    (true, { c with
      cache := assocSet c.cache addr (addIdToBuckets buckets expTickNum i) })

/-- `LocalMsgIdCache::tick`: increments the tick counter, erases every
bucket whose expiry tick equals the new counter, and drops addresses
left with no buckets. -/
def tick (c : LocalMsgIdCache) : LocalMsgIdCache :=
  let n := c.tickNum + 1
  { c with
    tickNum := n
    cache := (c.cache.map
        (fun e => (e.1, e.2.filter (fun b => !decide (b.1 = n))))).filter
      (fun e => !decide (e.2 = [])) }

end LocalMsgIdCache

/-! ## Timestamp validation (`INode::validateMsgTimestamp`, `node.cpp`)

The C++ source, with `maxAge : uint8_t`, `msgTsUnits, nowUnits : uint16_t`:
```
auto maxDriftUnits = m_nodeConf.msgIdCache.maxAge - 1;   // int (promoted)
uint16_t nowUnits = nowUnits64;
if (nowUnits - maxDriftUnits > nowUnits) {               // int arithmetic
    nowUnits += maxDriftUnits;
    msgTsUnits += maxDriftUnits;
}
return msgTsUnits <= nowUnits && msgTsUnits >= nowUnits - maxDriftUnits;
```
All comparisons and subtractions happen after integer promotion to `int`,
which the embedding renders on `Int`; the two `+=` assignments store back
into `uint16_t`, i.e. reduce modulo `2^16`. -/

/-- `INode::validateMsgTimestamp` with the clock explicit:
`nowPlusDiffMs` is `steady_clock::now() + tsDiff` in milliseconds. -/
def validateMsgTimestamp (maxAge timeUnit : Nat) (nowPlusDiffMs : Nat)
    (msgTsUnits : Nat) : Bool :=
  let ts : Nat := msgTsUnits % 65536
  let maxDriftUnits : Int := (maxAge : Int) - 1
  let nowUnits64 : Nat := nowPlusDiffMs / timeUnit
  let nowUnits : Nat := nowUnits64 % 65536
  if (nowUnits : Int) - maxDriftUnits > (nowUnits : Int) then
    let nowUnitsS : Nat := (((nowUnits : Int) + maxDriftUnits) % 65536).toNat
    let tsS : Nat := (((ts : Int) + maxDriftUnits) % 65536).toNat
    decide ((tsS : Int) ≤ (nowUnitsS : Int) ∧
      (tsS : Int) ≥ (nowUnitsS : Int) - maxDriftUnits)
  else
    decide ((ts : Int) ≤ (nowUnits : Int) ∧
      (ts : Int) ≥ (nowUnits : Int) - maxDriftUnits)

/-- The claim's acceptance predicate, written from the spec's words:
`ts` lies in the inclusive wrap-around window
`[nowUnits - (maxAge - 1), nowUnits]` modulo `2^16`, where
`nowUnits = (now + tsDiff) / timeUnit` reduced to 16 bits. -/
def specTimestampWindow (maxAge timeUnit : Nat) (nowPlusDiffMs : Nat)
    (msgTsUnits : Nat) : Bool :=
  let nowUnits : Nat := (nowPlusDiffMs / timeUnit) % 65536
  let ts : Nat := msgTsUnits % 65536
  decide ((nowUnits + 65536 - ts) % 65536 ≤ maxAge - 1)

/-! ## Wildcard trie (`wildcard_trie.hpp`)

`WildcardTrie<TValue>` is a level-separated trie.  `Node` carries a value,
a leaf flag, the stored level index, and a children map, here an
association list.  The BFS of `find` is rendered as an equivalent
structural recursion (the result container is unordered in the source). -/

/-- `WildcardTrie::Node`: value (unset until assigned), leaf flag,
stored level index, children. -/
inductive TrieNode (V : Type) where
  | mk (value : Option V) (leaf : Bool) (levelIndex : Nat)
      (childs : List (String × TrieNode V))

namespace TrieNode

variable {V : Type}

/-- The node's value (default-constructed until first assignment). -/
def value : TrieNode V → Option V
  | mk v _ _ _ => v

/-- The node's `isLeaf` flag. -/
def leaf : TrieNode V → Bool
  | mk _ l _ _ => l

/-- The node's stored `levelIndex`. -/
def levelIndex : TrieNode V → Nat
  | mk _ _ i _ => i

/-- The node's children map. -/
def childs : TrieNode V → List (String × TrieNode V)
  | mk _ _ _ cs => cs

/-- A default-constructed `Node` (the fresh `m_root`, or a fresh child
before its `levelIndex` is assigned). -/
def root : TrieNode V := mk none false 0 []

/-- The scanning loop of `WildcardTrie::splitToLevels`: repeatedly find
the leftmost occurrence of the literal separator, emit the level before
it, and continue after it; the remainder becomes the last level.  `fuel`
bounds the number of scanned characters; each step consumes at least one
character of `s` when `sep` is nonempty (the constructor rejects empty
separators), so starting the fuel at `s.length + 1` the fallback case is
unreachable. -/
def splitFuel (sep : List Char) : Nat → List Char → List Char →
    List (List Char)
  | 0, s, cur => [cur.reverse ++ s]
  | _ + 1, [], cur => [cur.reverse]
  | fuel + 1, c :: rest, cur =>
      if sep.isPrefixOf (c :: rest) then
        cur.reverse :: splitFuel sep fuel ((c :: rest).drop sep.length) []
      else
        splitFuel sep fuel rest (c :: cur)

/-- `WildcardTrie::splitToLevels`: leftmost-first split of `key` on the
literal separator, always yielding at least one (possibly empty) level. -/
def splitToLevels (sep key : String) : List String :=
  (splitFuel sep.data (key.data.length + 1) key.data []).map
    (fun l => String.mk l)

/-- `WildcardTrie::operator[]` followed by the assignment of
`insert(key, value)`: walks `levels`, creating missing children with
`levelIndex = i + 1`, then marks the final node a leaf holding `v`.
`i` is the index of the current level inside the full key. -/
def upsertPath (n : TrieNode V) (levels : List String) (i : Nat) (v : V) :
    TrieNode V :=
  match levels with
  | [] => mk (some v) true n.levelIndex n.childs
  | l :: rest =>
      let child := match assocGet n.childs l with
        | some c => c
        | none => mk none false (i + 1) []
      mk n.value n.leaf n.levelIndex
        (assocSet n.childs l (upsertPath child rest (i + 1) v))

/-- `WildcardTrie::insert` on a trie rooted at `n`. -/
def insertT (sep : String) (n : TrieNode V) (key : String) (v : V) :
    TrieNode V :=
  upsertPath n (splitToLevels sep key) 0 v

mutual

/-- The body of `WildcardTrie::find`'s BFS for a single dequeued node:
record a match when the stored level index equals the number of query
levels and the node is a leaf; otherwise, below the query depth, scan the
children. -/
def findAux (sep sWild mWild : String) (levels : List String) :
    TrieNode V → String → List (String × Option V)
  | mk v l li cs, nodeKey =>
      if li = levels.length && l then [(nodeKey, v)]
      else if li < levels.length then
        findChilds sep sWild mWild levels li nodeKey cs
      else []

/-- The child scan of `WildcardTrie::find`: descend into the child equal
to the literal level token or into the single-level wildcard child;
record an immediate match for a multi-level wildcard child that is a
leaf. -/
def findChilds (sep sWild mWild : String) (levels : List String) (li : Nat)
    (nodeKey : String) :
    List (String × TrieNode V) → List (String × Option V)
  | [] => []
  | (childLevel, child) :: rest =>
      let childKey := if nodeKey = "" then childLevel
        else nodeKey ++ sep ++ childLevel
      (if childLevel = levels.getD li "" || childLevel = sWild then
        findAux sep sWild mWild levels child childKey
      else if childLevel = mWild && child.leaf then [(childKey, child.value)]
      else []) ++ findChilds sep sWild mWild levels li nodeKey rest

end

/-- `WildcardTrie::find` on a trie rooted at `n`. -/
def find (sep sWild mWild : String) (n : TrieNode V) (key : String) :
    List (String × Option V) :=
  findAux sep sWild mWild (splitToLevels sep key) n ""

/-- `WildcardTrie::remove` below the root: `none` when the key path is
missing or ends at a non-leaf.  Otherwise returns the updated node and a
flag propagating the redundant-ancestor erasure of the source: the flag
is set while the chain above the removed leaf consists of non-leaf
single-child nodes, and the first ancestor that is a leaf or branches
erases its path child, exactly as the `nodeStack` loop does. -/
def removeAux (n : TrieNode V) (levels : List String) :
    Option (TrieNode V × Bool) :=
  match levels with
  | [] =>
      if n.leaf then
        some (mk n.value false n.levelIndex n.childs, n.childs.isEmpty)
      else none
  | l :: rest =>
      match assocGet n.childs l with
      | none => none
      | some child =>
          match removeAux child rest with
          | none => none
          | some (child', del) =>
              if del then
                if n.leaf || decide (n.childs.length > 1) then
                  some (mk n.value n.leaf n.levelIndex (assocErase n.childs l),
                    false)
                else
                  some (mk n.value n.leaf n.levelIndex
                    (assocSet n.childs l child'), true)
              else
                some (mk n.value n.leaf n.levelIndex
                  (assocSet n.childs l child'), false)

/-- `WildcardTrie::remove` on a trie rooted at `n`: the root always
qualifies for the erasure (`node == &m_root`), so a surviving deletion
flag erases the root's path child. -/
def removeT (sep : String) (n : TrieNode V) (key : String) :
    Bool × TrieNode V :=
  match splitToLevels sep key with
  | [] => (false, n)
  | l :: rest =>
      match assocGet n.childs l with
      | none => (false, n)
      | some child =>
          match removeAux child rest with
          | none => (false, n)
          | some (child', del) =>
              if del then
                (true, mk n.value n.leaf n.levelIndex (assocErase n.childs l))
              else
                (true, mk n.value n.leaf n.levelIndex
                  (assocSet n.childs l child'))

/-- Whether `levels` is a stored pattern: the walk along `levels` ends at
a leaf.  This is the exact condition under which `remove` succeeds. -/
def storedAt (n : TrieNode V) : List String → Bool
  | [] => n.leaf
  | l :: rest =>
      match assocGet n.childs l with
      | none => false
      | some child => storedAt child rest

/-- Whether `key` is a stored pattern of the trie rooted at `n`. -/
def stored (sep : String) (n : TrieNode V) (key : String) : Bool :=
  storedAt n (splitToLevels sep key)

mutual

/-- Well-formedness: every children map has pairwise-distinct keys, as
`std::unordered_map` guarantees by construction. -/
def wfB : TrieNode V → Bool
  | mk _ _ _ cs => decide ((cs.map Prod.fst).Nodup) && wfBList cs

/-- `wfB` for every node of a children list. -/
def wfBList : List (String × TrieNode V) → Bool
  | [] => true
  | c :: rest => wfB c.2 && wfBList rest

end

end TrieNode

/-! ## Client data model (`local_msg.hpp`, `local_peer.hpp`, `client.hpp`)

The client functions below thread an explicit `ClientState` (the fields
of `Client`/`INode` the verified operations touch) and return the list of
messages handed to the local layer's `send`.  Clock readings and
local-layer results are oracle parameters. -/

/-- `LocalMsg` (`local_msg.hpp`).  Auxiliary fields not observed by the
verified operations are omitted alongside their C++ defaults. -/
structure LocalMsg where
  type : LocalMsgType := .NONE
  addr : LocalAddr := []
  relayedAddr : LocalAddr := []
  pubs : List PubData := []
  subs : List String := []
  unsubs : List String := []
  subsData : List SubData := []
  id : Nat := 0
  ts : Nat := 0
  reqId : Nat := 0
  nodeType : NodeType := .UNKNOWN
  pref : Int := -32768
  rssi : Int := -32768
  tsDiff : Int := 0
  deriving DecidableEq, Repr

/-- `LocalPeer` (`local_peer.hpp`); `pref = rssi = INT16_MIN` denote
"unknown". -/
structure LocalPeer where
  addr : LocalAddr := []
  channel : Nat := 0
  pref : Int := -32768
  rssi : Int := -32768
  tsDiff : Int := 0
  deriving DecidableEq, Repr

/-- `LocalPeer::empty`: a peer is empty iff its address is. -/
def LocalPeer.empty (p : LocalPeer) : Bool :=
  p.addr.isEmpty

/-- `Client::PendingMsg`: the pending-request table entry.  The one-shot
`respPromise` is modeled by the `signalled` flag. -/
structure PendingMsg where
  req : LocalMsg
  broadcast : Bool
  resps : List LocalMsg := []
  signalled : Bool := false
  deriving DecidableEq, Repr

/-- The client state touched by the verified operations: the `INode`
message-ID counter and replay cache, and the `Client` pending table,
gateway peer, bootstrap flag, subscription trie (values are opaque
callback identifiers) and failure counters. -/
structure ClientState where
  msgId : Nat
  cache : LocalMsgIdCache
  pendingMsgs : List (Nat × PendingMsg) := []
  gw : LocalPeer := {}
  ignoreInvalidMsgTs : Bool := false
  subDB : TrieNode Nat := .root
  msgsFailCnt : Nat := 0
  timeSyncNoRespCnt : Nat := 0

/-- `INode::getMsgId`: returns the current 16-bit counter value and
post-increments it. -/
def getMsgId (s : ClientState) : Nat × ClientState :=
  (s.msgId % 65536, { s with msgId := (s.msgId + 1) % 65536 })

/-- `Client::prepareMsg`: stamps destination (gateway address, or empty
for broadcast), a fresh id, the gateway-clock timestamp and the node
type.  `gwNowMs` is `steady_clock::now() + m_gw.tsDiff` in
milliseconds. -/
def prepareMsg (timeUnit gwNowMs : Nat) (s : ClientState) (msg : LocalMsg)
    (broadcast : Bool) : LocalMsg × ClientState :=
  let (i, s') := getMsgId s
  ({ msg with
      addr := if broadcast then [] else s.gw.addr
      id := i
      ts := (gwNowMs / timeUnit) % 65536
      nodeType := .CLIENT }, s')

/-- `m_pendingMsgs.insert({id, pm})`: `std::map::insert` does not
overwrite an existing key. -/
def pendingInsert (l : List (Nat × PendingMsg)) (k : Nat) (v : PendingMsg) :
    List (Nat × PendingMsg) :=
  if (assocGet l k).isSome then l else (k, v) :: l

/-- `Client::sendLocalUnchecked(msg, respMsg, noResp)`.  Oracle
parameters: `sendErr` is the local layer's `send` result; `arrived` is
`some resps` when the response promise was fulfilled within
`respTimeout` (with `resps` the accumulated responses), `none` on
timeout.  Returns the error code, the response (default-constructed
unless one was taken), the final state, and the messages handed to
`send`. -/
def sendLocalUnchecked (timeUnit gwNowMs : Nat) (s : ClientState)
    (msg0 : LocalMsg) (noResp : Bool) (sendErr : ErrCode)
    (arrived : Option (List LocalMsg)) :
    ErrCode × LocalMsg × ClientState × List LocalMsg :=
  let (msg, s1) := prepareMsg timeUnit gwNowMs s msg0 false
  if msg.addr.isEmpty then (.NO_GATEWAY, {}, s1, [])
  else
    let s2 := { s1 with
      pendingMsgs := pendingInsert s1.pendingMsgs msg.id
        { req := msg, broadcast := false } }
    if sendErr ≠ .SUCCESS then (sendErr, {}, s2, [msg])
    else if noResp then (.SUCCESS, {}, s2, [msg])
    else
      match arrived with
      | none =>
          (.TIMEOUT, {},
            { s2 with pendingMsgs := assocErase s2.pendingMsgs msg.id },
            [msg])
      | some resps =>
          (.SUCCESS, resps.headD {},
            { s2 with pendingMsgs := assocErase s2.pendingMsgs msg.id },
            [msg])

/-- `Client::sendLocalUncheckedBroadcast`: dispatches a broadcast,
sleeps the response window, then collects the accumulated responses and
erases the pending entry.  `collected` is the response list accumulated
by the receive path during the window. -/
def sendLocalUncheckedBroadcast (timeUnit gwNowMs : Nat) (s : ClientState)
    (msg0 : LocalMsg) (sendErr : ErrCode) (collected : List LocalMsg) :
    ErrCode × List LocalMsg × ClientState × List LocalMsg :=
  let (msg, s1) := prepareMsg timeUnit gwNowMs s msg0 true
  let s2 := { s1 with
    pendingMsgs := pendingInsert s1.pendingMsgs msg.id
      { req := msg, broadcast := true } }
  if sendErr ≠ .SUCCESS then (sendErr, [], s2, [msg])
  else
    (.SUCCESS, collected,
      { s2 with pendingMsgs := assocErase s2.pendingMsgs msg.id }, [msg])

/-- `Client::sendLocal`: the checked unicast send.  Converts a `FAIL`
response into `MSG_PROCESSING_FAILED`, resets `m_msgsFailCnt` on success
and increments it on failure; the returned flag tells whether the
gateway watchdog was signalled (`trigMsgsFailCnt` reached, `0` meaning
"always"). -/
def sendLocal (timeUnit gwNowMs trigMsgsFailCnt : Nat) (s : ClientState)
    (msg0 : LocalMsg) (sendErr : ErrCode)
    (arrived : Option (List LocalMsg)) :
    ErrCode × LocalMsg × ClientState × List LocalMsg × Bool :=
  let (err, respMsg, s1, sent) :=
    sendLocalUnchecked timeUnit gwNowMs s msg0 false sendErr arrived
  if err ≠ .SUCCESS then
    let s2 := { s1 with msgsFailCnt := s1.msgsFailCnt + 1 }
    (err, respMsg, s2, sent,
      trigMsgsFailCnt = 0 || decide (s2.msgsFailCnt ≥ trigMsgsFailCnt))
  else if respMsg.type = .FAIL then
    let s2 := { s1 with msgsFailCnt := s1.msgsFailCnt + 1 }
    (.MSG_PROCESSING_FAILED, respMsg, s2, sent,
      trigMsgsFailCnt = 0 || decide (s2.msgsFailCnt ≥ trigMsgsFailCnt))
  else
    (.SUCCESS, respMsg, { s1 with msgsFailCnt := 0 }, sent, false)

/-- The `(request type, response type)` pairs `Client::recvLocalResp`
accepts. -/
def validRespPair (reqType respType : LocalMsgType) : Bool :=
  (respType = .OK && reqType = .PUB_SUB_UNSUB) ||
  (respType = .FAIL && reqType = .PROBE_REQ) ||
  (respType = .FAIL && reqType = .PUB_SUB_UNSUB) ||
  (respType = .PROBE_RES && reqType = .PROBE_REQ)

/-- `Client::recvLocalResp`.  `nowPlusDiffMs` is
`steady_clock::now() + m_gw.tsDiff` at the timestamp validation. -/
def recvLocalResp (timeUnit nowPlusDiffMs : Nat) (s : ClientState)
    (msg : LocalMsg) : ErrCode × ClientState :=
  let (idValid, cache') := s.cache.insert msg.addr msg.id
  let s1 := { s with cache := cache' }
  if !idValid then (.MSG_DUP_ID, s1)
  else if !s1.ignoreInvalidMsgTs &&
      !validateMsgTimestamp s1.cache.maxAge timeUnit nowPlusDiffMs msg.ts then
    (.MSG_INVALID_TS, s1)
  else
    match assocGet s1.pendingMsgs msg.reqId with
    | none => (.NOT_FOUND, s1)
    | some pendingMsg =>
        if !pendingMsg.broadcast && pendingMsg.req.addr ≠ msg.addr then
          (.MSG_UNKNOWN_SENDER, s1)
        else if validRespPair pendingMsg.req.type msg.type then
          (.SUCCESS, { s1 with
            pendingMsgs := assocSet s1.pendingMsgs msg.reqId
              { pendingMsg with
                resps := pendingMsg.resps ++ [msg]
                signalled := pendingMsg.signalled || !pendingMsg.broadcast } })
        else (.INVALID_ARG, s1)

/-- `Client::recvLocalSubData`.  On acceptance the fire-and-forget `OK`
acknowledgment goes through `sendLocalUnchecked` (its result is ignored)
and every subscription matching each delivered topic fires; the last
component lists the `(matched pattern, delivered data)` callback
invocations. -/
def recvLocalSubData (timeUnit nowPlusDiffMs gwNowMs : Nat)
    (s : ClientState) (msg : LocalMsg) (ackSendErr : ErrCode) :
    ErrCode × ClientState × List LocalMsg × List (String × SubData) :=
  let (idValid, cache') := s.cache.insert msg.addr msg.id
  let tsValid := validateMsgTimestamp s.cache.maxAge timeUnit nowPlusDiffMs
    msg.ts
  let senderValid := msg.addr = s.gw.addr
  let s1 := { s with cache := cache' }
  if !idValid || !tsValid then
    (if !idValid then .MSG_DUP_ID else .MSG_INVALID_TS, s1, [], [])
  else if !senderValid then (.MSG_UNKNOWN_SENDER, s1, [], [])
  else
    let (_, _, s2, ackSent) :=
      sendLocalUnchecked timeUnit gwNowMs s1 { type := .OK } true ackSendErr
        none
    let calls := msg.subsData.foldr
      (fun sd acc =>
        (TrieNode.find "/" "+" "#" s2.subDB sd.topic).map
          (fun e => (e.1, sd)) ++ acc) []
    (.SUCCESS, s2, ackSent, calls)

/-- `Client::pubSubUnsubBulk`.  `subs` pairs each topic with an opaque
callback identifier.  Returns the error code, the final state, and the
messages handed to the local layer's `send`. -/
def pubSubUnsubBulk (timeUnit gwNowMs trigMsgsFailCnt : Nat)
    (s : ClientState) (pubs : List PubData) (subs : List (String × Nat))
    (unsubs : List String) (sendErr : ErrCode)
    (arrived : Option (List LocalMsg)) :
    ErrCode × ClientState × List LocalMsg :=
  if pubs.isEmpty && subs.isEmpty && unsubs.isEmpty then (.SUCCESS, s, [])
  else
    let msg : LocalMsg := { type := .PUB_SUB_UNSUB
                            pubs := pubs
                            subs := subs.map Prod.fst
                            unsubs := unsubs }
    let (err, respMsg, s1, sent, _) :=
      sendLocal timeUnit gwNowMs trigMsgsFailCnt s msg sendErr arrived
    if err ≠ .SUCCESS then (err, s1, sent)
    else if respMsg.type ≠ .OK then (.MSG_PROCESSING_FAILED, s1, sent)
    else
      let db1 := unsubs.foldl
        (fun db topic => (TrieNode.removeT "/" db topic).2) s1.subDB
      let db2 := subs.foldl
        (fun db sub => TrieNode.insertT "/" db sub.1 sub.2) db1
      (.SUCCESS, { s1 with subDB := db2 }, sent)

/-- `Client::processGatewayDiscoveryResponses`: broadcast one probe on
the current channel and fold the collected responses into the best
gateway so far (highest `pref` wins; `rssi` is never recorded). -/
def processGatewayDiscoveryResponses (timeUnit gwNowMs : Nat)
    (s : ClientState) (msg : LocalMsg) (bestGw : LocalPeer) (channel : Nat)
    (sendErr : ErrCode) (collected : List LocalMsg) :
    LocalPeer × ClientState × List LocalMsg :=
  let (_, resps, s1, sent) :=
    sendLocalUncheckedBroadcast timeUnit gwNowMs s msg sendErr collected
  let best := resps.foldl
    (fun bg resp =>
      if resp.pref > bg.pref then
        { bg with addr := resp.addr
                  channel := channel
                  pref := resp.pref
                  tsDiff := resp.tsDiff }
      else bg) bestGw
  (best, s1, sent)

/-- One channel iteration of the `discoverGateway` loop: skip the
channel when `setChannel` failed (`chanOk`), otherwise probe it, folding
the collected responses into the best gateway and extending the send
log.  The probed message is the loop's `PROBE_REQ`. -/
def discoverGatewayStep (timeUnit gwNowMs : Nat) (chanOk : Nat → Bool)
    (sendErrOracle : Nat → ErrCode) (respOracle : Nat → List LocalMsg)
    (acc : LocalPeer × ClientState × List LocalMsg) (ch : Nat) :
    LocalPeer × ClientState × List LocalMsg :=
  if chanOk ch then
    let r := processGatewayDiscoveryResponses timeUnit gwNowMs acc.2.1
      { type := .PROBE_REQ } acc.1 ch (sendErrOracle ch) (respOracle ch)
    (r.1, r.2.1, acc.2.2 ++ r.2.2)
  else acc

/-- One attempt of `Client::discoverGateway`'s loop body: probe every
settable channel (or the default channel when the local layer has none),
then, if a best gateway was found, store it and reset the failure
counters.  `chanOk` is the oracle for `setChannel` results, `respOracle`
and `sendErrOracle` give each channel's collected responses and `send`
result.  Returns the best gateway, the final state, and all messages
handed to `send`. -/
def discoverGatewayAttempt (timeUnit gwNowMs : Nat) (s : ClientState)
    (channels : List Nat) (chanOk : Nat → Bool)
    (sendErrOracle : Nat → ErrCode) (respOracle : Nat → List LocalMsg) :
    LocalPeer × ClientState × List LocalMsg :=
  let s0 := { s with ignoreInvalidMsgTs := true }
  let r :=
    if channels.isEmpty then
      processGatewayDiscoveryResponses timeUnit gwNowMs s0
        { type := .PROBE_REQ } {} 0 (sendErrOracle 0) (respOracle 0)
    else
      channels.foldl
        (discoverGatewayStep timeUnit gwNowMs chanOk sendErrOracle
          respOracle)
        (({} : LocalPeer), s0, [])
  let bestGw := r.1
  let s2 := { r.2.1 with ignoreInvalidMsgTs := false }
  if !bestGw.empty then
    (bestGw,
      { s2 with gw := bestGw, msgsFailCnt := 0, timeSyncNoRespCnt := 0 },
      r.2.2)
  else
    (bestGw, { s2 with gw := {} }, r.2.2)

/-! ## Local broker (`local_broker.cpp`)

`m_subs` is a `WildcardTrie<bool>` with the default tokens. -/

/-- The local broker's state. -/
structure LocalBroker where
  subs : TrieNode Bool

/-- `LocalBroker::publish`: when some stored pattern matches the topic
and a receive callback is registered, the callback runs exactly once and
its result is returned; otherwise `SUCCESS` with no invocation.  `hasCb`
models `m_recvCb != nullptr` and `cbRes` the callback's result; the
second component counts callback invocations. -/
def LocalBroker.publish (b : LocalBroker) (hasCb : Bool) (cbRes : ErrCode)
    (topic : String) : ErrCode × Nat :=
  let subscribed := !(TrieNode.find "/" "+" "#" b.subs topic).isEmpty
  if subscribed && hasCb then (cbRes, 1) else (.SUCCESS, 0)

/-- `LocalBroker::subscribe`. -/
def LocalBroker.subscribe (b : LocalBroker) (topic : String) :
    ErrCode × LocalBroker :=
  (.SUCCESS, { subs := TrieNode.insertT "/" b.subs topic true })

/-- `LocalBroker::unsubscribe`: `NOT_FOUND` iff the trie's `remove`
fails. -/
def LocalBroker.unsubscribe (b : LocalBroker) (topic : String) :
    ErrCode × LocalBroker :=
  let (ok, t) := TrieNode.removeT "/" b.subs topic
  (if ok then .SUCCESS else .NOT_FOUND, { subs := t })

/-! ## Association-list lemmas -/

theorem assocGet_eq_none {α β : Type} [DecidableEq α]
    (l : List (α × β)) (a : α) :
    assocGet l a = none ↔ a ∉ l.map Prod.fst := by
  induction l with
  | nil => simp [assocGet]
  | cons hd tl ih =>
      obtain ⟨k, v⟩ := hd
      by_cases h : k = a
      · subst h
        simp [assocGet]
      · simp [assocGet, h, ih, Ne.symm h]

theorem assocGet_assocSet_self {α β : Type} [DecidableEq α]
    (l : List (α × β)) (a : α) (v : β) :
    assocGet (assocSet l a v) a = some v := by
  induction l with
  | nil => simp [assocSet, assocGet]
  | cons hd tl ih =>
      obtain ⟨k, v₀⟩ := hd
      by_cases h : k = a <;> simp [assocSet, assocGet, h, ih]

theorem assocGet_assocSet_ne {α β : Type} [DecidableEq α]
    (l : List (α × β)) (a a' : α) (v : β) (h : a' ≠ a) :
    assocGet (assocSet l a v) a' = assocGet l a' := by
  induction l with
  | nil => simp [assocSet, assocGet, Ne.symm h]
  | cons hd tl ih =>
      obtain ⟨k, v₀⟩ := hd
      by_cases hk : k = a
      · subst hk
        simp [assocSet, assocGet, Ne.symm h]
      · by_cases hk' : k = a' <;> simp [assocSet, assocGet, hk, hk', ih, h]

theorem assocGet_assocErase_ne {α β : Type} [DecidableEq α]
    (l : List (α × β)) (a a' : α) (h : a' ≠ a) :
    assocGet (assocErase l a) a' = assocGet l a' := by
  induction l with
  | nil => simp [assocErase, assocGet]
  | cons hd tl ih =>
      obtain ⟨k, v₀⟩ := hd
      by_cases hk : k = a
      · subst hk
        simp [assocErase, assocGet, Ne.symm h]
      · by_cases hk' : k = a' <;> simp [assocErase, assocGet, hk, hk', ih, h]

theorem assocGet_assocErase_self {α β : Type} [DecidableEq α]
    (l : List (α × β)) (a : α) (h : (l.map Prod.fst).Nodup) :
    assocGet (assocErase l a) a = none := by
  induction l with
  | nil => simp [assocErase, assocGet]
  | cons hd tl ih =>
      obtain ⟨k, v₀⟩ := hd
      simp only [List.map_cons, List.nodup_cons] at h
      by_cases hk : k = a
      · subst hk
        simp only [assocErase, if_pos rfl]
        exact (assocGet_eq_none tl k).2 h.1
      · simp [assocErase, assocGet, hk, ih h.2]

theorem assocSet_map_fst_of_mem {α β : Type} [DecidableEq α]
    (l : List (α × β)) (a : α) (v : β) (h : (assocGet l a).isSome) :
    (assocSet l a v).map Prod.fst = l.map Prod.fst := by
  induction l with
  | nil => simp [assocGet] at h
  | cons hd tl ih =>
      obtain ⟨k, v₀⟩ := hd
      by_cases hk : k = a
      · simp [assocSet, hk]
      · simp only [assocGet, if_neg hk] at h
        simp [assocSet, hk, ih h]

theorem assocSet_map_fst_of_none {α β : Type} [DecidableEq α]
    (l : List (α × β)) (a : α) (v : β) (h : assocGet l a = none) :
    (assocSet l a v).map Prod.fst = l.map Prod.fst ++ [a] := by
  induction l with
  | nil => simp [assocSet]
  | cons hd tl ih =>
      obtain ⟨k, v₀⟩ := hd
      by_cases hk : k = a
      · simp [assocGet, hk] at h
      · simp only [assocGet, if_neg hk] at h
        simp [assocSet, hk, ih h]

theorem assocSet_nodup_keys {α β : Type} [DecidableEq α]
    (l : List (α × β)) (a : α) (v : β) (h : (l.map Prod.fst).Nodup) :
    ((assocSet l a v).map Prod.fst).Nodup := by
  cases hg : assocGet l a with
  | some w =>
      rw [assocSet_map_fst_of_mem l a v (by simp [hg])]
      exact h
  | none =>
      rw [assocSet_map_fst_of_none l a v hg]
      refine List.Nodup.append h (List.nodup_singleton a) ?_
      intro x hx hx'
      simp only [List.mem_singleton] at hx'
      subst hx'
      exact ((assocGet_eq_none l x).1 hg) hx

theorem assocErase_map_fst_sublist {α β : Type} [DecidableEq α]
    (l : List (α × β)) (a : α) :
    ((assocErase l a).map Prod.fst).Sublist (l.map Prod.fst) := by
  induction l with
  | nil => simp [assocErase]
  | cons hd tl ih =>
      obtain ⟨k, v₀⟩ := hd
      by_cases hk : k = a
      · simp only [assocErase, if_pos hk, List.map_cons]
        exact (List.sublist_cons_self _ _)
      · simp only [assocErase, if_neg hk, List.map_cons]
        exact ih.cons₂ k

/-! ## Message-ID cache lemmas -/

namespace LocalMsgIdCache

/-- Well-formedness: the address map has no duplicate keys (guaranteed by
`std::unordered_map`). -/
def WFc (c : LocalMsgIdCache) : Prop :=
  (c.cache.map Prod.fst).Nodup

theorem insert_eq (c : LocalMsgIdCache) (a : LocalAddr) (i : Nat) :
    c.insert a i =
      if c.mem a i then (false, c)
      else (true, { c with cache := (assocSet c.cache a
        (addIdToBuckets ((assocGet c.cache a).getD [])
          (c.tickNum + c.maxAge + 1) i)) }) :=
  rfl

theorem insert_fst (c : LocalMsgIdCache) (a : LocalAddr) (i : Nat) :
    (c.insert a i).1 = !(c.mem a i) := by
  rw [insert_eq]
  cases h : c.mem a i <;> simp

theorem insert_of_mem (c : LocalMsgIdCache) (a : LocalAddr) (i : Nat)
    (h : c.mem a i = true) : c.insert a i = (false, c) := by
  rw [insert_eq, h]
  rfl

theorem insert_tickNum (c : LocalMsgIdCache) (a : LocalAddr) (i : Nat) :
    (c.insert a i).2.tickNum = c.tickNum := by
  rw [insert_eq]
  cases h : c.mem a i <;> rfl

theorem insert_maxAge (c : LocalMsgIdCache) (a : LocalAddr) (i : Nat) :
    (c.insert a i).2.maxAge = c.maxAge := by
  rw [insert_eq]
  cases h : c.mem a i <;> rfl

theorem insert_cache_of_not_mem (c : LocalMsgIdCache) (a : LocalAddr)
    (i : Nat) (h : c.mem a i = false) :
    (c.insert a i).2.cache = assocSet c.cache a
      (addIdToBuckets ((assocGet c.cache a).getD [])
        (c.tickNum + c.maxAge + 1) i) := by
  rw [insert_eq, h]
  rfl

theorem addIdToBuckets_contains (bs : List (Nat × List Nat)) (exp i : Nat) :
    (addIdToBuckets bs exp i).any (fun b => b.2.contains i) = true := by
  induction bs with
  | nil => simp [addIdToBuckets]
  | cons b tl ih =>
      obtain ⟨e, ids⟩ := b
      by_cases he : e = exp
      · simp [addIdToBuckets, he]
      · simp only [addIdToBuckets, if_neg he, List.any_cons, ih,
          Bool.or_true]

theorem addIdToBuckets_memBucket (bs : List (Nat × List Nat)) (exp i e : Nat)
    (h : bs.any (fun b => b.2.contains i) = false) :
    (addIdToBuckets bs exp i).any
        (fun b => decide (b.1 = e) && b.2.contains i) =
      decide (exp = e) := by
  induction bs with
  | nil => simp [addIdToBuckets]
  | cons b tl ih =>
      obtain ⟨e₀, ids⟩ := b
      simp only [List.any_cons, Bool.or_eq_false_iff] at h
      by_cases he : e₀ = exp
      · subst he
        have hred : addIdToBuckets ((e₀, ids) :: tl) e₀ i
            = (e₀, i :: ids) :: tl := by
          simp [addIdToBuckets]
        have htl : tl.any (fun b => decide (b.1 = e) && b.2.contains i)
            = false := by
          rw [List.any_eq_false]
          intro b hb
          have := (List.any_eq_false.1 h.2) b hb
          simp_all
        rw [hred, List.any_cons, htl]
        simp
      · simp only [addIdToBuckets, if_neg he, List.any_cons, ih h.2]
        rw [h.1]
        simp

theorem mem_insert_self (c : LocalMsgIdCache) (a : LocalAddr) (i : Nat) :
    (c.insert a i).2.mem a i = true := by
  cases h : c.mem a i with
  | true => rw [insert_of_mem c a i h]; exact h
  | false =>
      unfold mem
      rw [insert_cache_of_not_mem c a i h, assocGet_assocSet_self]
      simpa using addIdToBuckets_contains _ _ _

theorem insert_memBucket (c : LocalMsgIdCache) (a : LocalAddr) (i : Nat)
    (h : c.mem a i = false) (e : Nat) :
    (c.insert a i).2.memBucket a e i =
      decide (c.tickNum + c.maxAge + 1 = e) := by
  unfold memBucket
  rw [insert_cache_of_not_mem c a i h, assocGet_assocSet_self]
  unfold mem at h
  simpa using addIdToBuckets_memBucket _ _ _ _ h

theorem insert_WFc (c : LocalMsgIdCache) (a : LocalAddr) (i : Nat)
    (h : WFc c) : WFc (c.insert a i).2 := by
  cases hm : c.mem a i with
  | true => rw [insert_of_mem c a i hm]; exact h
  | false =>
      unfold WFc
      rw [insert_cache_of_not_mem c a i hm]
      exact assocSet_nodup_keys _ _ _ h

theorem tick_tickNum (c : LocalMsgIdCache) : c.tick.tickNum = c.tickNum + 1 :=
  rfl

theorem tick_maxAge (c : LocalMsgIdCache) : c.tick.maxAge = c.maxAge :=
  rfl

theorem tickList_keys_sublist (n : Nat)
    (l : List (LocalAddr × List (Nat × List Nat))) :
    (((l.map (fun e => (e.1, e.2.filter (fun b => !decide (b.1 = n))))).filter
        (fun e => !decide (e.2 = []))).map Prod.fst).Sublist
      (l.map Prod.fst) := by
  have h1 : ((l.map (fun e => (e.1, e.2.filter
      (fun b => !decide (b.1 = n))))).map Prod.fst) = l.map Prod.fst := by
    rw [List.map_map]
    rfl
  calc (((l.map _).filter _).map Prod.fst).Sublist ((l.map _).map Prod.fst) :=
        List.Sublist.map _ (List.filter_sublist _)
    _ = l.map Prod.fst := h1

theorem tick_WFc (c : LocalMsgIdCache) (h : WFc c) : WFc c.tick := by
  unfold WFc at h ⊢
  exact List.Nodup.sublist (tickList_keys_sublist _ _) h

theorem assocGet_tickList (n : Nat)
    (l : List (LocalAddr × List (Nat × List Nat))) (a : LocalAddr)
    (h : (l.map Prod.fst).Nodup) :
    assocGet ((l.map (fun e => (e.1, e.2.filter
        (fun b => !decide (b.1 = n))))).filter
      (fun e => !decide (e.2 = []))) a =
    (assocGet l a).bind (fun bs =>
      if bs.filter (fun b => !decide (b.1 = n)) = [] then none
      else some (bs.filter (fun b => !decide (b.1 = n)))) := by
  induction l with
  | nil => simp [assocGet]
  | cons hd tl ih =>
      obtain ⟨k, bs⟩ := hd
      simp only [List.map_cons, List.nodup_cons] at h
      have ihh := ih h.2
      by_cases hk : k = a
      · subst hk
        have hnone : assocGet ((tl.map (fun e => (e.1, e.2.filter
            (fun b => !decide (b.1 = n))))).filter
            (fun e => !decide (e.2 = []))) k = none := by
          rw [assocGet_eq_none]
          intro hmem
          exact h.1 ((tickList_keys_sublist n tl).mem hmem)
        have hself : assocGet ((k, bs) :: tl) k = some bs := by
          simp [assocGet]
        by_cases hf : bs.filter (fun b => !decide (b.1 = n)) = []
        · rw [List.map_cons, List.filter_cons_of_neg (by simp [hf]), hnone,
            hself]
          simp [hf]
        · rw [List.map_cons, List.filter_cons_of_pos (by simp [hf]), hself]
          have hhead : assocGet ((k, bs.filter (fun b => !decide (b.1 = n)))
              :: ((tl.map (fun e => (e.1, e.2.filter
                (fun b => !decide (b.1 = n))))).filter
              (fun e => !decide (e.2 = [])))) k
              = some (bs.filter (fun b => !decide (b.1 = n))) := by
            simp [assocGet]
          rw [hhead]
          simp [hf]
      · have hskip : assocGet ((k, bs) :: tl) a = assocGet tl a := by
          simp [assocGet, hk]
        by_cases hf : bs.filter (fun b => !decide (b.1 = n)) = []
        · rw [List.map_cons, List.filter_cons_of_neg (by simp [hf]), ihh,
            hskip]
        · rw [List.map_cons, List.filter_cons_of_pos (by simp [hf])]
          have hhead : assocGet ((k, bs.filter (fun b => !decide (b.1 = n)))
              :: ((tl.map (fun e => (e.1, e.2.filter
                (fun b => !decide (b.1 = n))))).filter
              (fun e => !decide (e.2 = [])))) a
              = assocGet ((tl.map (fun e => (e.1, e.2.filter
                (fun b => !decide (b.1 = n))))).filter
              (fun e => !decide (e.2 = []))) a := by
            simp [assocGet, hk]
          rw [hhead, ihh, hskip]

theorem any_filter_bucket (bs : List (Nat × List Nat)) (n e i : Nat) :
    (bs.filter (fun b => !decide (b.1 = n))).any
        (fun b => decide (b.1 = e) && b.2.contains i) =
      (bs.any (fun b => decide (b.1 = e) && b.2.contains i) &&
        !decide (e = n)) := by
  induction bs with
  | nil => simp
  | cons b tl ih =>
      obtain ⟨e₀, ids⟩ := b
      by_cases hbn : e₀ = n
      · subst hbn
        rw [List.filter_cons_of_neg (by simp)]
        rw [ih, List.any_cons]
        by_cases hbe : e₀ = e
        · subst hbe
          simp
        · simp [hbe]
      · rw [List.filter_cons_of_pos (by simp [hbn])]
        rw [List.any_cons, List.any_cons, ih]
        by_cases hbe : e₀ = e
        · subst hbe
          simp [hbn, Bool.and_or_distrib_right]
        · simp [hbe]

theorem memBucket_tick (c : LocalMsgIdCache) (h : WFc c)
    (a : LocalAddr) (e i : Nat) :
    c.tick.memBucket a e i =
      (c.memBucket a e i && !decide (e = c.tickNum + 1)) := by
  unfold memBucket tick
  simp only
  rw [assocGet_tickList _ _ _ h]
  cases hg : assocGet c.cache a with
  | none => simp
  | some bs =>
      simp only [Option.some_bind, Option.getD_some]
      by_cases hf : bs.filter (fun b => !decide (b.1 = c.tickNum + 1)) = []
      · have haf := any_filter_bucket bs (c.tickNum + 1) e i
        rw [hf] at haf
        simp only [List.any_nil] at haf
        rw [if_pos hf]
        exact haf
      · rw [if_neg hf]
        simp only [Option.getD_some]
        exact any_filter_bucket bs (c.tickNum + 1) e i

theorem iterate_tickNum (c : LocalMsgIdCache) (k : Nat) :
    ((tick)^[k] c).tickNum = c.tickNum + k := by
  induction k with
  | zero => rfl
  | succ k ih =>
      rw [Function.iterate_succ_apply', tick_tickNum, ih]
      omega

theorem iterate_maxAge (c : LocalMsgIdCache) (k : Nat) :
    ((tick)^[k] c).maxAge = c.maxAge := by
  induction k with
  | zero => rfl
  | succ k ih => rw [Function.iterate_succ_apply', tick_maxAge, ih]

theorem iterate_WFc (c : LocalMsgIdCache) (k : Nat) (h : WFc c) :
    WFc ((tick)^[k] c) := by
  induction k with
  | zero => exact h
  | succ k ih =>
      rw [Function.iterate_succ_apply']
      exact tick_WFc _ ih

theorem memBucket_iterate (c : LocalMsgIdCache) (h : WFc c)
    (k : Nat) (a : LocalAddr) (e i : Nat) :
    ((tick)^[k] c).memBucket a e i = true ↔
      (c.memBucket a e i = true ∧
        ¬(c.tickNum < e ∧ e ≤ c.tickNum + k)) := by
  induction k with
  | zero =>
      simp only [Function.iterate_zero, id_eq]
      constructor
      · intro hm
        exact ⟨hm, by omega⟩
      · intro hm
        exact hm.1
  | succ k ih =>
      rw [Function.iterate_succ_apply',
        memBucket_tick _ (iterate_WFc c k h), Bool.and_eq_true,
        iterate_tickNum]
      constructor
      · rintro ⟨hm, hne⟩
        obtain ⟨hc, hr⟩ := ih.1 hm
        refine ⟨hc, ?_⟩
        have hne' : ¬(e = c.tickNum + k + 1) := by simpa using hne
        omega
      · rintro ⟨hc, hr⟩
        refine ⟨ih.2 ⟨hc, by omega⟩, ?_⟩
        have hne' : ¬(e = c.tickNum + k + 1) := by omega
        simpa using hne'

theorem mem_iff_exists_memBucket (c : LocalMsgIdCache) (a : LocalAddr)
    (i : Nat) :
    c.mem a i = true ↔ ∃ e, c.memBucket a e i = true := by
  unfold mem memBucket
  constructor
  · intro hm
    obtain ⟨b, hb, hc⟩ := List.any_eq_true.1 hm
    exact ⟨b.1, List.any_eq_true.2 ⟨b, hb, by simp_all⟩⟩
  · rintro ⟨e, hm⟩
    obtain ⟨b, hb, hc⟩ := List.any_eq_true.1 hm
    rw [Bool.and_eq_true] at hc
    exact List.any_eq_true.2 ⟨b, hb, hc.2⟩

end LocalMsgIdCache

/-! ## Claim theorems -/

/-- C1: the claim states that `validateMsgTimestamp` accepts exactly the
inclusive wrap-around window `[nowUnits - (maxAge - 1), nowUnits]` modulo
`2^16`, with the underflow case handled by shifting both endpoints.  The
code disagrees at the wrap: with `maxAge = 3`, `timeUnit = 500 ms` and
`now + tsDiff = 32768000 ms` (so `nowUnits64 = 65536`, `nowUnits = 0`),
the timestamp `65535` lies in the modular window `{65534, 65535, 0}` but
is rejected, because integer promotion makes the underflow test
`nowUnits - maxDriftUnits > nowUnits` unsatisfiable for `maxAge ≥ 1`, so
the endpoint shift never runs and the comparison is done on plain
integers.  Timestamp `0` is accepted, as both agree. -/
theorem c1_timestamp_wraparound_window_divergence :
    specTimestampWindow 3 500 32768000 65535 = true ∧
    validateMsgTimestamp 3 500 32768000 65535 = false ∧
    specTimestampWindow 3 500 32768000 0 = true ∧
    validateMsgTimestamp 3 500 32768000 0 = true := by
  decide

/-- C2: message-ID cache lifecycle.  `insert` fails and leaves the cache
unchanged exactly when the id is already present for the address;
otherwise it succeeds and stores the pair in the bucket expiring at
`N + maxAge + 1` (`N` the current tick counter).  `tick` increments the
counter and erases exactly the buckets whose expiry tick equals the new
counter.  Hence a repeated insert fails for `maxAge` ticks after the
insertion and succeeds after `maxAge + 1` ticks, and the inserted entry
does not survive `maxAge + 1` ticks. -/
theorem c2_msg_id_cache_lifecycle (c : LocalMsgIdCache) (a : LocalAddr)
    (i : Nat) (hwf : c.WFc) :
    (c.mem a i = true → c.insert a i = (false, c)) ∧
    (c.mem a i = false → (c.insert a i).1 = true ∧
      (c.insert a i).2.memBucket a (c.tickNum + c.maxAge + 1) i = true) ∧
    (c.tick.tickNum = c.tickNum + 1 ∧
      ∀ a' e i', c.tick.memBucket a' e i' = true ↔
        (c.memBucket a' e i' = true ∧ e ≠ c.tickNum + 1)) ∧
    (c.mem a i = false → ∀ k, k ≤ c.maxAge →
      (((LocalMsgIdCache.tick)^[k] (c.insert a i).2).insert a i).1
        = false) ∧
    (c.mem a i = false →
      ((LocalMsgIdCache.tick)^[c.maxAge + 1] (c.insert a i).2).mem a i
          = false ∧
      (((LocalMsgIdCache.tick)^[c.maxAge + 1] (c.insert a i).2).insert
          a i).1 = true) := by
  have hwf' : ((c.insert a i).2).WFc := LocalMsgIdCache.insert_WFc c a i hwf
  have htick : ((c.insert a i).2).tickNum = c.tickNum :=
    LocalMsgIdCache.insert_tickNum c a i
  have hage : ((c.insert a i).2).maxAge = c.maxAge :=
    LocalMsgIdCache.insert_maxAge c a i
  refine ⟨LocalMsgIdCache.insert_of_mem c a i, ?_, ?_, ?_, ?_⟩
  · intro h
    refine ⟨by rw [LocalMsgIdCache.insert_fst, h]; rfl, ?_⟩
    rw [LocalMsgIdCache.insert_memBucket c a i h]
    simp
  · refine ⟨LocalMsgIdCache.tick_tickNum c, ?_⟩
    intro a' e i'
    rw [LocalMsgIdCache.memBucket_tick c hwf, Bool.and_eq_true]
    simp
  · intro h k hk
    rw [LocalMsgIdCache.insert_fst, Bool.not_eq_false',
      LocalMsgIdCache.mem_iff_exists_memBucket]
    refine ⟨c.tickNum + c.maxAge + 1, ?_⟩
    rw [LocalMsgIdCache.memBucket_iterate _ hwf']
    refine ⟨?_, ?_⟩
    · rw [LocalMsgIdCache.insert_memBucket c a i h]
      simp
    · rw [htick]
      omega
  · intro h
    have hmem : ((LocalMsgIdCache.tick)^[c.maxAge + 1]
        (c.insert a i).2).mem a i = false := by
      rw [Bool.eq_false_iff]
      intro hmm
      obtain ⟨e, he⟩ :=
        (LocalMsgIdCache.mem_iff_exists_memBucket _ a i).1 hmm
      rw [LocalMsgIdCache.memBucket_iterate _ hwf'] at he
      obtain ⟨hb, hr⟩ := he
      rw [LocalMsgIdCache.insert_memBucket c a i h] at hb
      have : c.tickNum + c.maxAge + 1 = e := by simpa using hb
      rw [htick] at hr
      omega
    refine ⟨hmem, ?_⟩
    rw [LocalMsgIdCache.insert_fst, hmem]
    rfl

/-! ## Wildcard-trie lemmas -/

theorem assocGet_mem {α β : Type} [DecidableEq α] (l : List (α × β))
    (a : α) (v : β) (h : assocGet l a = some v) : (a, v) ∈ l := by
  induction l with
  | nil => simp [assocGet] at h
  | cons hd tl ih =>
      obtain ⟨k, v₀⟩ := hd
      by_cases hk : k = a
      · subst hk
        have h' : v₀ = v := by simpa [assocGet] using h
        subst h'
        exact List.mem_cons_self _ _
      · simp only [assocGet, if_neg hk] at h
        exact List.mem_cons_of_mem _ (ih h)

namespace TrieNode

variable {V : Type}

theorem splitFuel_ne_nil (sep : List Char) (fuel : Nat) (s cur : List Char) :
    splitFuel sep fuel s cur ≠ [] := by
  induction fuel generalizing s cur with
  | zero => simp [splitFuel]
  | succ fuel ih =>
      cases s with
      | nil => simp [splitFuel]
      | cons c rest =>
          rw [splitFuel]
          split
          · simp
          · exact ih _ _

theorem splitToLevels_ne_nil (sep key : String) :
    splitToLevels sep key ≠ [] := by
  unfold splitToLevels
  intro h
  exact splitFuel_ne_nil _ _ _ _ (List.map_eq_nil_iff.1 h)

theorem wfBList_mem (cs : List (String × TrieNode V)) (p : String × TrieNode V)
    (h : wfBList cs = true) (hp : p ∈ cs) : wfB p.2 = true := by
  induction cs with
  | nil => simp at hp
  | cons c rest ih =>
      rw [wfBList, Bool.and_eq_true] at h
      rcases List.mem_cons.mp hp with hp | hp
      · rw [hp]
        exact h.1
      · exact ih h.2 hp

theorem wfB_parts (n : TrieNode V) (h : wfB n = true) :
    (n.childs.map Prod.fst).Nodup ∧ wfBList n.childs = true := by
  obtain ⟨v, l, li, cs⟩ := n
  rw [wfB, Bool.and_eq_true] at h
  exact ⟨by simpa using h.1, h.2⟩

theorem removeAux_none_iff (levels : List String) (n : TrieNode V) :
    removeAux n levels = none ↔ storedAt n levels = false := by
  induction levels generalizing n with
  | nil =>
      cases hl : n.leaf <;> simp [removeAux, storedAt, hl]
  | cons l rest ih =>
      cases hg : assocGet n.childs l with
      | none => simp [removeAux, storedAt, hg]
      | some child =>
          cases hr : removeAux child rest with
          | none =>
              simp only [removeAux, hg, hr, storedAt]
              simpa using (ih child).1 hr
          | some pr =>
              obtain ⟨child', del⟩ := pr
              have hst : storedAt child rest = true := by
                by_contra hc
                rw [Bool.not_eq_true] at hc
                rw [(ih child).2 hc] at hr
                exact Option.noConfusion hr
              simp only [removeAux, hg, hr, storedAt, hst]
              refine iff_of_false ?_ (by simp)
              split
              · split <;> simp
              · simp

theorem storedAt_removeAux (levels : List String) (n n' : TrieNode V)
    (del : Bool) (hwf : wfB n = true)
    (h : removeAux n levels = some (n', del)) :
    storedAt n' levels = false := by
  induction levels generalizing n n' del with
  | nil =>
      cases hl : n.leaf with
      | false => simp [removeAux, hl] at h
      | true =>
          simp only [removeAux, hl, if_pos, Option.some.injEq,
            Prod.mk.injEq] at h
          rw [← h.1]
          simp [storedAt, leaf]
  | cons l rest ih =>
      cases hg : assocGet n.childs l with
      | none => simp [removeAux, hg] at h
      | some child =>
          cases hr : removeAux child rest with
          | none => simp [removeAux, hg, hr] at h
          | some pr =>
              obtain ⟨child', del'⟩ := pr
              simp only [removeAux, hg, hr] at h
              have hwfc : wfB child = true :=
                wfBList_mem n.childs (l, child) (wfB_parts n hwf).2
                  (assocGet_mem _ _ _ hg)
              have hrec : storedAt child' rest = false :=
                ih child child' del' hwfc hr
              have hchE : (mk n.value n.leaf n.levelIndex
                  (assocErase n.childs l)).childs
                  = assocErase n.childs l := rfl
              have hchS : (mk n.value n.leaf n.levelIndex
                  (assocSet n.childs l child')).childs
                  = assocSet n.childs l child' := rfl
              by_cases hdel : del' = true
              · rw [hdel] at h
                simp only [if_pos] at h
                by_cases hq : (n.leaf || decide (n.childs.length > 1)) = true
                · rw [if_pos hq] at h
                  simp only [Option.some.injEq, Prod.mk.injEq] at h
                  rw [← h.1]
                  simp only [storedAt, hchE,
                    assocGet_assocErase_self _ _ (wfB_parts n hwf).1]
                · rw [if_neg hq] at h
                  simp only [Option.some.injEq, Prod.mk.injEq] at h
                  rw [← h.1]
                  simp only [storedAt, hchS, assocGet_assocSet_self]
                  exact hrec
              · rw [Bool.not_eq_true] at hdel
                rw [hdel] at h
                simp only [Bool.false_eq_true, if_false,
                  Option.some.injEq, Prod.mk.injEq] at h
                rw [← h.1]
                simp only [storedAt, hchS, assocGet_assocSet_self]
                exact hrec

theorem removeT_fst (sep : String) (n : TrieNode V) (key : String) :
    (removeT sep n key).1 = stored sep n key := by
  cases hl : splitToLevels sep key with
  | nil => exact absurd hl (splitToLevels_ne_nil sep key)
  | cons l rest =>
      cases hg : assocGet n.childs l with
      | none => simp [removeT, stored, storedAt, hl, hg]
      | some child =>
          cases hr : removeAux child rest with
          | none =>
              have hns := (removeAux_none_iff rest child).1 hr
              simp [removeT, stored, storedAt, hl, hg, hr, hns]
          | some pr =>
              obtain ⟨child', del⟩ := pr
              have hst : storedAt child rest = true := by
                by_contra hc
                rw [Bool.not_eq_true] at hc
                rw [(removeAux_none_iff rest child).2 hc] at hr
                exact Option.noConfusion hr
              simp only [removeT, stored, storedAt, hl, hg, hr, hst]
              split <;> rfl

theorem stored_removeT (sep : String) (n : TrieNode V) (key : String)
    (hwf : wfB n = true) (h : (removeT sep n key).1 = true) :
    stored sep (removeT sep n key).2 key = false := by
  cases hl : splitToLevels sep key with
  | nil => exact absurd hl (splitToLevels_ne_nil sep key)
  | cons l rest =>
      cases hg : assocGet n.childs l with
      | none => simp [removeT, hl, hg] at h
      | some child =>
          cases hr : removeAux child rest with
          | none => simp [removeT, hl, hg, hr] at h
          | some pr =>
              obtain ⟨child', del⟩ := pr
              have hwfc : wfB child = true :=
                wfBList_mem n.childs (l, child) (wfB_parts n hwf).2
                  (assocGet_mem _ _ _ hg)
              have hrec : storedAt child' rest = false :=
                storedAt_removeAux rest child child' del hwfc hr
              have hchE : (mk n.value n.leaf n.levelIndex
                  (assocErase n.childs l)).childs
                  = assocErase n.childs l := rfl
              have hchS : (mk n.value n.leaf n.levelIndex
                  (assocSet n.childs l child')).childs
                  = assocSet n.childs l child' := rfl
              by_cases hdel : del = true
              · simp only [removeT, stored, storedAt, hl, hg, hr, hdel,
                  if_pos, hchE,
                  assocGet_assocErase_self _ _ (wfB_parts n hwf).1]
              · rw [Bool.not_eq_true] at hdel
                simp only [removeT, stored, storedAt, hl, hg, hr, hdel,
                  Bool.false_eq_true, if_false, hchS, assocGet_assocSet_self]
                exact hrec

end TrieNode

/-- C6: wildcard-trie `find` with the default tokens.  Pattern `a/+/b`
matches the literal query `a/x/b` and not `a/x/y/b`; pattern `a/#`
matches `a/x` and `a/x/y` but not the literal query `a` (no empty suffix
at the wildcard's own depth); and the empty query matches the patterns
`+` and `#` stored at depth 1. -/
theorem c6_wildcard_find_cases :
    (TrieNode.find "/" "+" "#"
        (TrieNode.insertT "/" TrieNode.root "a/+/b" (1 : Nat)) "a/x/b"
      = [("a/+/b", some 1)]) ∧
    (TrieNode.find "/" "+" "#"
        (TrieNode.insertT "/" TrieNode.root "a/+/b" (1 : Nat)) "a/x/y/b"
      = []) ∧
    (TrieNode.find "/" "+" "#"
        (TrieNode.insertT "/" TrieNode.root "a/#" (2 : Nat)) "a/x"
      = [("a/#", some 2)]) ∧
    (TrieNode.find "/" "+" "#"
        (TrieNode.insertT "/" TrieNode.root "a/#" (2 : Nat)) "a/x/y"
      = [("a/#", some 2)]) ∧
    (TrieNode.find "/" "+" "#"
        (TrieNode.insertT "/" TrieNode.root "a/#" (2 : Nat)) "a"
      = []) ∧
    (("+", some 3) ∈ TrieNode.find "/" "+" "#"
        (TrieNode.insertT "/" (TrieNode.insertT "/" TrieNode.root "+" 3)
          "#" (4 : Nat)) "") ∧
    (("#", some 4) ∈ TrieNode.find "/" "+" "#"
        (TrieNode.insertT "/" (TrieNode.insertT "/" TrieNode.root "+" 3)
          "#" (4 : Nat)) "") := by
  decide

/-- C8: the local broker.  `publish` invokes the receive callback exactly
once when some stored pattern matches the topic and a callback is
registered — regardless of how many patterns match — propagating the
callback's result; with no matching pattern or no callback it returns
`SUCCESS` without invoking anything.  `unsubscribe` returns `NOT_FOUND`
exactly when the pattern is not stored, and removes the pattern
otherwise. -/
theorem c8_local_broker_publish_unsubscribe (b : LocalBroker)
    (hasCb : Bool) (cbRes : ErrCode) (topic : String)
    (hwf : b.subs.wfB = true) :
    ((TrieNode.find "/" "+" "#" b.subs topic ≠ [] ∧ hasCb = true) →
      b.publish hasCb cbRes topic = (cbRes, 1)) ∧
    ((TrieNode.find "/" "+" "#" b.subs topic = [] ∨ hasCb = false) →
      b.publish hasCb cbRes topic = (.SUCCESS, 0)) ∧
    ((b.unsubscribe topic).1 = .NOT_FOUND ↔
      TrieNode.stored "/" b.subs topic = false) ∧
    ((b.unsubscribe topic).1 = .SUCCESS →
      TrieNode.stored "/" (b.unsubscribe topic).2.subs topic = false) := by
  refine ⟨?_, ?_, ?_, ?_⟩
  · rintro ⟨hne, hcb⟩
    unfold LocalBroker.publish
    have : (TrieNode.find "/" "+" "#" b.subs topic).isEmpty = false := by
      cases hfind : TrieNode.find "/" "+" "#" b.subs topic
      · exact absurd hfind hne
      · rfl
    rw [this, hcb]
    rfl
  · intro hc
    unfold LocalBroker.publish
    rcases hc with hc | hc
    · rw [hc]
      rfl
    · rw [hc]
      simp
  · have hfst := TrieNode.removeT_fst "/" b.subs topic
    rcases hrm : TrieNode.removeT "/" b.subs topic with ⟨ok, t⟩
    rw [hrm] at hfst
    unfold LocalBroker.unsubscribe
    rw [hrm, ← hfst]
    cases ok <;> simp
  · intro hs
    have hstored := TrieNode.stored_removeT "/" b.subs topic hwf
    rcases hrm : TrieNode.removeT "/" b.subs topic with ⟨ok, t⟩
    rw [hrm] at hstored
    unfold LocalBroker.unsubscribe at hs ⊢
    rw [hrm] at hs ⊢
    cases ok with
    | false => simp at hs
    | true => simpa using hstored rfl

/-- Witness for C8 on a broker holding the single pattern `x`: publishing
to `x` with a registered callback invokes it once, and after a successful
unsubscribe the pattern is gone. -/
theorem c8_local_broker_publish_unsubscribe_witness :
    (LocalBroker.publish
        ⟨TrieNode.insertT "/" TrieNode.root "x" true⟩ true .SUCCESS "x"
      = (.SUCCESS, 1)) ∧
    TrieNode.stored "/"
        ((LocalBroker.unsubscribe
          ⟨TrieNode.insertT "/" TrieNode.root "x" true⟩ "x").2.subs) "x"
      = false :=
  ⟨(c8_local_broker_publish_unsubscribe
      ⟨TrieNode.insertT "/" TrieNode.root "x" true⟩ true .SUCCESS "x"
      (by decide)).1 (by decide),
    (c8_local_broker_publish_unsubscribe
      ⟨TrieNode.insertT "/" TrieNode.root "x" true⟩ true .SUCCESS "x"
      (by decide)).2.2.2 (by decide)⟩

/-! ## Client send/receive lemmas -/

theorem assocGet_pendingInsert_self (l : List (Nat × PendingMsg)) (k : Nat)
    (v : PendingMsg) : (assocGet (pendingInsert l k v) k).isSome = true := by
  unfold pendingInsert
  cases hg : assocGet l k with
  | some w => simp [hg]
  | none => simp [hg, assocGet]

theorem prepareMsg_addr (timeUnit gwNowMs : Nat) (s : ClientState)
    (msg0 : LocalMsg) :
    (prepareMsg timeUnit gwNowMs s msg0 false).1.addr = s.gw.addr :=
  rfl

theorem prepareMsg_snd (timeUnit gwNowMs : Nat) (s : ClientState)
    (msg0 : LocalMsg) (broadcast : Bool) :
    (prepareMsg timeUnit gwNowMs s msg0 broadcast).2 =
      { s with msgId := (s.msgId + 1) % 65536 } :=
  rfl

theorem sendLocalUnchecked_subDB (timeUnit gwNowMs : Nat) (s : ClientState)
    (msg0 : LocalMsg) (noResp : Bool) (sendErr : ErrCode)
    (arrived : Option (List LocalMsg)) :
    (sendLocalUnchecked timeUnit gwNowMs s msg0 noResp sendErr
      arrived).2.2.1.subDB = s.subDB := by
  rcases hp : prepareMsg timeUnit gwNowMs s msg0 false with ⟨pm, s1⟩
  have hs1 : s1.subDB = s.subDB := by
    have h0 : (prepareMsg timeUnit gwNowMs s msg0 false).2.subDB
        = s.subDB := rfl
    rw [hp] at h0
    exact h0
  simp only [sendLocalUnchecked, hp]
  split
  · exact hs1
  · split
    · exact hs1
    · split
      · exact hs1
      · split <;> exact hs1

theorem sendLocalUnchecked_gw (timeUnit gwNowMs : Nat) (s : ClientState)
    (msg0 : LocalMsg) (noResp : Bool) (sendErr : ErrCode)
    (arrived : Option (List LocalMsg)) :
    (sendLocalUnchecked timeUnit gwNowMs s msg0 noResp sendErr
      arrived).2.2.1.gw = s.gw := by
  rcases hp : prepareMsg timeUnit gwNowMs s msg0 false with ⟨pm, s1⟩
  have hs1 : s1.gw = s.gw := by
    have h0 : (prepareMsg timeUnit gwNowMs s msg0 false).2.gw = s.gw := rfl
    rw [hp] at h0
    exact h0
  simp only [sendLocalUnchecked, hp]
  split
  · exact hs1
  · split
    · exact hs1
    · split
      · exact hs1
      · split <;> exact hs1

theorem sendLocalUnchecked_sent_mem (timeUnit gwNowMs : Nat)
    (s : ClientState) (msg0 : LocalMsg) (noResp : Bool) (sendErr : ErrCode)
    (arrived : Option (List LocalMsg)) (m : LocalMsg)
    (hm : m ∈ (sendLocalUnchecked timeUnit gwNowMs s msg0 noResp sendErr
      arrived).2.2.2) :
    m = (prepareMsg timeUnit gwNowMs s msg0 false).1 := by
  rcases hp : prepareMsg timeUnit gwNowMs s msg0 false with ⟨pm, s1⟩
  show m = pm
  simp only [sendLocalUnchecked, hp] at hm
  split at hm
  · simp at hm
  · split at hm
    · simpa using hm
    · split at hm
      · simpa using hm
      · split at hm <;> simpa using hm

theorem sendLocalUnchecked_sent_len (timeUnit gwNowMs : Nat)
    (s : ClientState) (msg0 : LocalMsg) (noResp : Bool) (sendErr : ErrCode)
    (arrived : Option (List LocalMsg)) :
    (sendLocalUnchecked timeUnit gwNowMs s msg0 noResp sendErr
      arrived).2.2.2.length ≤ 1 := by
  rcases hp : prepareMsg timeUnit gwNowMs s msg0 false with ⟨pm, s1⟩
  simp only [sendLocalUnchecked, hp]
  split
  · simp
  · split
    · simp
    · split
      · simp
      · split <;> simp

theorem sendLocalUnchecked_sent_len_of_gw (timeUnit gwNowMs : Nat)
    (s : ClientState) (msg0 : LocalMsg) (noResp : Bool) (sendErr : ErrCode)
    (arrived : Option (List LocalMsg)) (h : s.gw.addr ≠ []) :
    (sendLocalUnchecked timeUnit gwNowMs s msg0 noResp sendErr
      arrived).2.2.2.length = 1 := by
  rcases hp : prepareMsg timeUnit gwNowMs s msg0 false with ⟨pm, s1⟩
  have haddr : pm.addr.isEmpty = false := by
    have h0 := prepareMsg_addr timeUnit gwNowMs s msg0
    rw [hp] at h0
    rw [h0]
    cases hg : s.gw.addr with
    | nil => exact absurd hg h
    | cons hd tl => rfl
  simp only [sendLocalUnchecked, hp, haddr]
  simp only [Bool.false_eq_true, if_false]
  split
  · simp
  · split
    · simp
    · split <;> simp

/-- C4: `recvLocalResp` validates in order — duplicate message ID
(`MSG_DUP_ID`), then timestamp unless the bootstrap flag is set
(`MSG_INVALID_TS`), then pending-request lookup by `reqId`
(`NOT_FOUND`), then sender address for non-broadcast requests
(`MSG_UNKNOWN_SENDER`) — and accepts exactly the request/response type
pairs (PROBE_REQ, PROBE_RES), (PROBE_REQ, FAIL), (PUB_SUB_UNSUB, OK),
(PUB_SUB_UNSUB, FAIL), recording the response in the pending entry and
signalling completion only for non-broadcast requests; every other pair
yields `INVALID_ARG`. -/
theorem c4_recv_local_resp_validation (timeUnit now : Nat)
    (s : ClientState) (msg : LocalMsg) :
    (s.cache.mem msg.addr msg.id = true →
      (recvLocalResp timeUnit now s msg).1 = .MSG_DUP_ID) ∧
    (s.cache.mem msg.addr msg.id = false →
      s.ignoreInvalidMsgTs = false →
      validateMsgTimestamp s.cache.maxAge timeUnit now msg.ts = false →
      (recvLocalResp timeUnit now s msg).1 = .MSG_INVALID_TS) ∧
    (s.cache.mem msg.addr msg.id = false →
      (s.ignoreInvalidMsgTs = true ∨
        validateMsgTimestamp s.cache.maxAge timeUnit now msg.ts = true) →
      assocGet s.pendingMsgs msg.reqId = none →
      (recvLocalResp timeUnit now s msg).1 = .NOT_FOUND) ∧
    (∀ pm, s.cache.mem msg.addr msg.id = false →
      (s.ignoreInvalidMsgTs = true ∨
        validateMsgTimestamp s.cache.maxAge timeUnit now msg.ts = true) →
      assocGet s.pendingMsgs msg.reqId = some pm →
      pm.broadcast = false → pm.req.addr ≠ msg.addr →
      (recvLocalResp timeUnit now s msg).1 = .MSG_UNKNOWN_SENDER) ∧
    (∀ pm, s.cache.mem msg.addr msg.id = false →
      (s.ignoreInvalidMsgTs = true ∨
        validateMsgTimestamp s.cache.maxAge timeUnit now msg.ts = true) →
      assocGet s.pendingMsgs msg.reqId = some pm →
      (pm.broadcast = true ∨ pm.req.addr = msg.addr) →
      ((validRespPair pm.req.type msg.type = true →
          (recvLocalResp timeUnit now s msg).1 = .SUCCESS ∧
          (recvLocalResp timeUnit now s msg).2.pendingMsgs =
            assocSet s.pendingMsgs msg.reqId
              { pm with resps := pm.resps ++ [msg]
                        signalled := pm.signalled || !pm.broadcast }) ∧
        (validRespPair pm.req.type msg.type = false →
          (recvLocalResp timeUnit now s msg).1 = .INVALID_ARG))) ∧
    (∀ reqT respT, validRespPair reqT respT = true ↔
      ((reqT = .PROBE_REQ ∧ respT = .PROBE_RES) ∨
        (reqT = .PROBE_REQ ∧ respT = .FAIL) ∨
        (reqT = .PUB_SUB_UNSUB ∧ respT = .OK) ∨
        (reqT = .PUB_SUB_UNSUB ∧ respT = .FAIL))) := by
  rcases he : s.cache.insert msg.addr msg.id with ⟨iv, c'⟩
  have hAge : c'.maxAge = s.cache.maxAge := by
    have := LocalMsgIdCache.insert_maxAge s.cache msg.addr msg.id
    rw [he] at this
    exact this
  refine ⟨?_, ?_, ?_, ?_, ?_, ?_⟩
  · intro hm
    have hiv : iv = false := by
      have := LocalMsgIdCache.insert_fst s.cache msg.addr msg.id
      rw [he, hm] at this
      exact this
    simp [recvLocalResp, he, hiv]
  · intro hm hig hts
    have hiv : iv = true := by
      have := LocalMsgIdCache.insert_fst s.cache msg.addr msg.id
      rw [he, hm] at this
      exact this
    simp [recvLocalResp, he, hiv, hig, hAge, hts]
  · intro hm hd hlook
    have hiv : iv = true := by
      have := LocalMsgIdCache.insert_fst s.cache msg.addr msg.id
      rw [he, hm] at this
      exact this
    rcases hd with hig | hts
    · simp [recvLocalResp, he, hiv, hig, hlook]
    · simp [recvLocalResp, he, hiv, hAge, hts, hlook]
  · intro pm hm hd hlook hbc hne
    have hiv : iv = true := by
      have := LocalMsgIdCache.insert_fst s.cache msg.addr msg.id
      rw [he, hm] at this
      exact this
    rcases hd with hig | hts
    · simp [recvLocalResp, he, hiv, hig, hlook, hbc, hne]
    · simp [recvLocalResp, he, hiv, hAge, hts, hlook, hbc, hne]
  · intro pm hm hd hlook hok
    have hiv : iv = true := by
      have := LocalMsgIdCache.insert_fst s.cache msg.addr msg.id
      rw [he, hm] at this
      exact this
    have haddr : ¬(pm.broadcast = false ∧ ¬pm.req.addr = msg.addr) := by
      rcases hok with hb | ha
      · rw [hb]
        simp
      · intro hc
        exact hc.2 ha
    constructor
    · intro hvp
      rcases hd with hig | hts
      · constructor
        · simp [recvLocalResp, he, hiv, hig, hlook, haddr, hvp]
        · simp [recvLocalResp, he, hiv, hig, hlook, haddr, hvp]
      · constructor
        · simp [recvLocalResp, he, hiv, hAge, hts, hlook, haddr, hvp]
        · simp [recvLocalResp, he, hiv, hAge, hts, hlook, haddr, hvp]
    · intro hvp
      rcases hd with hig | hts
      · simp [recvLocalResp, he, hiv, hig, hlook, haddr, hvp]
      · simp [recvLocalResp, he, hiv, hAge, hts, hlook, haddr, hvp]
  · intro reqT respT
    cases reqT <;> cases respT <;> simp [validRespPair]

/-- Witness for C4: a pending `PUB_SUB_UNSUB` request with id 7 to
gateway `[1, 2]`; an `OK` response from the gateway is accepted and a
`PROBE_RES` response to the same request returns `INVALID_ARG`. -/
theorem c4_recv_local_resp_validation_witness :
    (recvLocalResp 500 1000
        { msgId := 9
          cache := ⟨3, 0, []⟩
          pendingMsgs := [(7, { req := { type := .PUB_SUB_UNSUB, addr := [1, 2], id := 7 }, broadcast := false })]
          gw := { addr := [1, 2] } }
        { type := .OK, addr := [1, 2], id := 20, ts := 2, reqId := 7 }).1
      = .SUCCESS ∧
    (recvLocalResp 500 1000
        { msgId := 9
          cache := ⟨3, 0, []⟩
          pendingMsgs := [(7, { req := { type := .PUB_SUB_UNSUB, addr := [1, 2], id := 7 }, broadcast := false })]
          gw := { addr := [1, 2] } }
        { type := .PROBE_RES, addr := [1, 2], id := 21, ts := 2, reqId := 7 }).1
      = .INVALID_ARG := by
  constructor
  · exact (((c4_recv_local_resp_validation 500 1000 _ _).2.2.2.2.1
      { req := { type := .PUB_SUB_UNSUB, addr := [1, 2], id := 7 },
        broadcast := false }
      (by decide) (Or.inr (by decide)) (by decide)
      (Or.inr (by decide))).1 (by decide)).1
  · exact ((c4_recv_local_resp_validation 500 1000 _ _).2.2.2.2.1
      { req := { type := .PUB_SUB_UNSUB, addr := [1, 2], id := 7 },
        broadcast := false }
      (by decide) (Or.inr (by decide)) (by decide)
      (Or.inr (by decide))).2 (by decide)

/-- C9 counterexample: with an empty gateway, `sendLocalUnchecked`
returns `NO_GATEWAY` without sending and without touching the pending
table — but the client state is *not* unchanged: `prepareMsg` has
already post-incremented the message-ID counter (5 becomes 6) before the
empty-address check. -/
theorem c9_no_gateway_state_changed_counterexample :
    (sendLocalUnchecked 500 1000 { msgId := 5, cache := ⟨3, 0, []⟩ } {}
      false .SUCCESS none).1 = .NO_GATEWAY ∧
    (sendLocalUnchecked 500 1000 { msgId := 5, cache := ⟨3, 0, []⟩ } {}
      false .SUCCESS none).2.2.2 = [] ∧
    (sendLocalUnchecked 500 1000 { msgId := 5, cache := ⟨3, 0, []⟩ } {}
      false .SUCCESS none).2.2.1.pendingMsgs = [] ∧
    (sendLocalUnchecked 500 1000 { msgId := 5, cache := ⟨3, 0, []⟩ } {}
      false .SUCCESS none).2.2.1.msgId = 6 := by
  decide

/-- C9 (amended): with an empty stored gateway address, every unicast
`sendLocalUnchecked` returns `NO_GATEWAY` before the local layer's
`send` is invoked and before any pending-table entry is inserted; the
pending table is untouched, and the only state change is the message-ID
counter, already post-incremented by `prepareMsg`. -/
theorem c9_no_gateway_short_circuit (timeUnit gwNowMs : Nat)
    (s : ClientState) (msg0 : LocalMsg) (noResp : Bool) (sendErr : ErrCode)
    (arrived : Option (List LocalMsg)) (h : s.gw.addr = []) :
    (sendLocalUnchecked timeUnit gwNowMs s msg0 noResp sendErr arrived).1
      = .NO_GATEWAY ∧
    (sendLocalUnchecked timeUnit gwNowMs s msg0 noResp sendErr
      arrived).2.2.2 = [] ∧
    (sendLocalUnchecked timeUnit gwNowMs s msg0 noResp sendErr
      arrived).2.2.1 = { s with msgId := (s.msgId + 1) % 65536 } := by
  rcases hp : prepareMsg timeUnit gwNowMs s msg0 false with ⟨pm, s1⟩
  have haddr : pm.addr.isEmpty = true := by
    have h0 := prepareMsg_addr timeUnit gwNowMs s msg0
    rw [hp] at h0
    rw [h0, h]
    rfl
  have hs1 : s1 = { s with msgId := (s.msgId + 1) % 65536 } := by
    have h0 := prepareMsg_snd timeUnit gwNowMs s msg0 false
    rw [hp] at h0
    exact h0
  simp only [sendLocalUnchecked, hp, haddr]
  exact ⟨rfl, rfl, hs1⟩

/-- Witness for C9 at the concrete empty-gateway state of the
counterexample. -/
theorem c9_no_gateway_short_circuit_witness :
    (sendLocalUnchecked 500 1000 { msgId := 5, cache := ⟨3, 0, []⟩ } {}
      false .SUCCESS none).1 = .NO_GATEWAY ∧
    (sendLocalUnchecked 500 1000 { msgId := 5, cache := ⟨3, 0, []⟩ } {}
      false .SUCCESS none).2.2.2 = [] :=
  ⟨(c9_no_gateway_short_circuit 500 1000
      { msgId := 5, cache := ⟨3, 0, []⟩ } {} false .SUCCESS none rfl).1,
    (c9_no_gateway_short_circuit 500 1000
      { msgId := 5, cache := ⟨3, 0, []⟩ } {} false .SUCCESS none rfl).2.1⟩

/-- C3: the fire-and-forget (`noResp`) send path — used to acknowledge
`SUB_DATA` — inserts a pending-table entry before `send` but returns
success without ever erasing it, and `recvLocalResp` never removes
entries either, so the entry is never removed: at a concrete state with
gateway `[1]` and message-ID counter 5 the call returns `SUCCESS` and
leaves the entry keyed 5 in the table, and the receive path preserves
the pending table's key set in every case. -/
theorem c3_noresp_send_entry_never_removed :
    ((sendLocalUnchecked 500 1000
        { msgId := 5, cache := ⟨3, 0, []⟩, gw := { addr := [1] } } {}
        true .SUCCESS none).1 = .SUCCESS ∧
      (assocGet (sendLocalUnchecked 500 1000
        { msgId := 5, cache := ⟨3, 0, []⟩, gw := { addr := [1] } } {}
        true .SUCCESS none).2.2.1.pendingMsgs 5).isSome = true) ∧
    (∀ (timeUnit now : Nat) (s : ClientState) (msg : LocalMsg),
      ((recvLocalResp timeUnit now s msg).2.pendingMsgs).map Prod.fst =
        s.pendingMsgs.map Prod.fst) := by
  constructor
  · constructor <;> decide
  · intro timeUnit now s msg
    rcases he : s.cache.insert msg.addr msg.id with ⟨iv, c'⟩
    simp only [recvLocalResp, he]
    split
    · rfl
    · split
      · rfl
      · split
        · rfl
        · next pm hlook =>
            split
            · rfl
            · split
              · exact assocSet_map_fst_of_mem _ _ _ (by simp [hlook])
              · rfl

theorem recvLocalResp_dup_after (timeUnit now : Nat) (s : ClientState)
    (m : LocalMsg) (h : s.cache.mem m.addr m.id = true) :
    (recvLocalResp timeUnit now s m).1 = .MSG_DUP_ID := by
  simp [recvLocalResp, LocalMsgIdCache.insert_of_mem _ _ _ h]

theorem recvLocalSubData_dup_after (timeUnit now gwNowMs : Nat)
    (s : ClientState) (m : LocalMsg) (ackErr : ErrCode)
    (h : s.cache.mem m.addr m.id = true) :
    (recvLocalSubData timeUnit now gwNowMs s m ackErr).1 = .MSG_DUP_ID := by
  simp [recvLocalSubData, LocalMsgIdCache.insert_of_mem _ _ _ h]

theorem recvLocalResp_state_frame (timeUnit now : Nat) (s : ClientState)
    (m : LocalMsg) :
    (recvLocalResp timeUnit now s m).1 = .SUCCESS ∨
    (recvLocalResp timeUnit now s m).2 =
      { s with cache := (s.cache.insert m.addr m.id).2 } := by
  rcases he : s.cache.insert m.addr m.id with ⟨iv, c'⟩
  simp only [recvLocalResp, he]
  split
  · exact Or.inr rfl
  · split
    · exact Or.inr rfl
    · split
      · exact Or.inr rfl
      · split
        · exact Or.inr rfl
        · split
          · exact Or.inl rfl
          · exact Or.inr rfl

theorem recvLocalSubData_state_frame (timeUnit now gwNowMs : Nat)
    (s : ClientState) (m : LocalMsg) (ackErr : ErrCode) :
    (recvLocalSubData timeUnit now gwNowMs s m ackErr).1 = .SUCCESS ∨
    (recvLocalSubData timeUnit now gwNowMs s m ackErr).2.1 =
      { s with cache := (s.cache.insert m.addr m.id).2 } := by
  rcases he : s.cache.insert m.addr m.id with ⟨iv, c'⟩
  rcases hu : sendLocalUnchecked timeUnit gwNowMs
      { s with cache := c' } { type := .OK } true ackErr none
    with ⟨e1, r1, s2, ak⟩
  simp only [recvLocalSubData, he, hu]
  split
  · exact Or.inr rfl
  · split
    · exact Or.inr rfl
    · exact Or.inl rfl

/-- C10: both receive paths call `validateMsgId` first, inserting the
`(sender, id)` pair into the replay cache as a side effect.  A message
rejected with `MSG_INVALID_TS`, `NOT_FOUND`, `MSG_UNKNOWN_SENDER` or
`INVALID_ARG` therefore still consumes its id: on these error returns
the replay cache is the only client state that changes, and an
identical redelivery (at any later clock reading) returns `MSG_DUP_ID`
instead of the original code. -/
theorem c10_rejected_message_consumes_id
    (timeUnit now now2 gwNowMs gwNowMs2 : Nat) (s : ClientState)
    (msg : LocalMsg) (ackErr ackErr2 : ErrCode) :
    (((recvLocalResp timeUnit now s msg).1 = .MSG_INVALID_TS ∨
      (recvLocalResp timeUnit now s msg).1 = .NOT_FOUND ∨
      (recvLocalResp timeUnit now s msg).1 = .MSG_UNKNOWN_SENDER ∨
      (recvLocalResp timeUnit now s msg).1 = .INVALID_ARG) →
      ((recvLocalResp timeUnit now s msg).2 =
        { s with cache := (s.cache.insert msg.addr msg.id).2 } ∧
      (recvLocalResp timeUnit now2 (recvLocalResp timeUnit now s msg).2
        msg).1 = .MSG_DUP_ID)) ∧
    (((recvLocalSubData timeUnit now gwNowMs s msg ackErr).1
        = .MSG_INVALID_TS ∨
      (recvLocalSubData timeUnit now gwNowMs s msg ackErr).1
        = .MSG_UNKNOWN_SENDER) →
      ((recvLocalSubData timeUnit now gwNowMs s msg ackErr).2.1 =
        { s with cache := (s.cache.insert msg.addr msg.id).2 } ∧
      (recvLocalSubData timeUnit now2 gwNowMs2
        (recvLocalSubData timeUnit now gwNowMs s msg ackErr).2.1 msg
        ackErr2).1 = .MSG_DUP_ID)) := by
  constructor
  · intro herr
    have hne : (recvLocalResp timeUnit now s msg).1 ≠ .SUCCESS := by
      rcases herr with h | h | h | h <;> simp [h]
    rcases recvLocalResp_state_frame timeUnit now s msg with hs | hst
    · exact absurd hs hne
    · refine ⟨hst, ?_⟩
      apply recvLocalResp_dup_after
      rw [hst]
      exact LocalMsgIdCache.mem_insert_self s.cache msg.addr msg.id
  · intro herr
    have hne : (recvLocalSubData timeUnit now gwNowMs s msg ackErr).1
        ≠ .SUCCESS := by
      rcases herr with h | h <;> simp [h]
    rcases recvLocalSubData_state_frame timeUnit now gwNowMs s msg ackErr
      with hs | hst
    · exact absurd hs hne
    · refine ⟨hst, ?_⟩
      apply recvLocalSubData_dup_after
      rw [hst]
      exact LocalMsgIdCache.mem_insert_self s.cache msg.addr msg.id

/-- Witness for C10: a response with no matching pending request is
rejected `NOT_FOUND` and its redelivery returns `MSG_DUP_ID`; a
`SUB_DATA` message from a non-gateway sender is rejected
`MSG_UNKNOWN_SENDER` and its redelivery returns `MSG_DUP_ID`. -/
theorem c10_rejected_message_consumes_id_witness :
    (recvLocalResp 500 900
      (recvLocalResp 500 1000
        { msgId := 9, cache := ⟨3, 0, []⟩, gw := { addr := [1, 2] } }
        { type := .OK, addr := [1, 2], id := 20, ts := 2, reqId := 7 }).2
      { type := .OK, addr := [1, 2], id := 20, ts := 2, reqId := 7 }).1
      = .MSG_DUP_ID ∧
    (recvLocalSubData 500 900 800
      (recvLocalSubData 500 1000 700
        { msgId := 9, cache := ⟨3, 0, []⟩, gw := { addr := [1, 2] } }
        { type := .SUB_DATA, addr := [3], id := 21, ts := 2 } .SUCCESS).2.1
      { type := .SUB_DATA, addr := [3], id := 21, ts := 2 } .SUCCESS).1
      = .MSG_DUP_ID :=
  ⟨((c10_rejected_message_consumes_id 500 1000 900 0 0
      { msgId := 9, cache := ⟨3, 0, []⟩, gw := { addr := [1, 2] } }
      { type := .OK, addr := [1, 2], id := 20, ts := 2, reqId := 7 }
      .SUCCESS .SUCCESS).1 (Or.inr (Or.inl (by decide)))).2,
    ((c10_rejected_message_consumes_id 500 1000 900 700 800
      { msgId := 9, cache := ⟨3, 0, []⟩, gw := { addr := [1, 2] } }
      { type := .SUB_DATA, addr := [3], id := 21, ts := 2 }
      .SUCCESS .SUCCESS).2 (Or.inr (by decide))).2⟩

/-- C5: `pubSubUnsubBulk`.  With all three vectors empty it returns
`SUCCESS` without sending and without touching any state.  Otherwise it
builds a single `PUB_SUB_UNSUB` message carrying all pubs, the topics of
all subs, and all unsubs — every message handed to the local layer is
that message, at most one is handed over, and exactly one whenever a
gateway is stored — and the call succeeds exactly when the dispatch
succeeded and the gateway acknowledged with `OK`; in that case the
subscription database has every `unsubs` topic removed and every
`(topic, callback)` of `subs` inserted (publications never touch it),
and on every failure outcome the subscription database is unchanged. -/
theorem c5_pub_sub_unsub_bulk (timeUnit gwNowMs trig : Nat)
    (s : ClientState) (pubs : List PubData) (subs : List (String × Nat))
    (unsubs : List String) (sendErr : ErrCode)
    (arrived : Option (List LocalMsg)) :
    (pubs = [] → subs = [] → unsubs = [] →
      pubSubUnsubBulk timeUnit gwNowMs trig s pubs subs unsubs sendErr
        arrived = (.SUCCESS, s, [])) ∧
    (¬(pubs = [] ∧ subs = [] ∧ unsubs = []) →
      (∀ m ∈ (pubSubUnsubBulk timeUnit gwNowMs trig s pubs subs unsubs
          sendErr arrived).2.2,
        m.type = .PUB_SUB_UNSUB ∧ m.pubs = pubs ∧
        m.subs = subs.map Prod.fst ∧ m.unsubs = unsubs) ∧
      (pubSubUnsubBulk timeUnit gwNowMs trig s pubs subs unsubs sendErr
        arrived).2.2.length ≤ 1 ∧
      (s.gw.addr ≠ [] →
        (pubSubUnsubBulk timeUnit gwNowMs trig s pubs subs unsubs sendErr
          arrived).2.2.length = 1) ∧
      ((pubSubUnsubBulk timeUnit gwNowMs trig s pubs subs unsubs sendErr
          arrived).1 = .SUCCESS ↔
        ((sendLocalUnchecked timeUnit gwNowMs s
            { type := .PUB_SUB_UNSUB, pubs := pubs,
              subs := subs.map Prod.fst, unsubs := unsubs } false sendErr
            arrived).1 = .SUCCESS ∧
          (sendLocalUnchecked timeUnit gwNowMs s
            { type := .PUB_SUB_UNSUB, pubs := pubs,
              subs := subs.map Prod.fst, unsubs := unsubs } false sendErr
            arrived).2.1.type = .OK)) ∧
      ((pubSubUnsubBulk timeUnit gwNowMs trig s pubs subs unsubs sendErr
          arrived).1 = .SUCCESS →
        (pubSubUnsubBulk timeUnit gwNowMs trig s pubs subs unsubs sendErr
          arrived).2.1.subDB =
          subs.foldl (fun db sub => TrieNode.insertT "/" db sub.1 sub.2)
            (unsubs.foldl
              (fun db topic => (TrieNode.removeT "/" db topic).2)
              s.subDB)) ∧
      ((pubSubUnsubBulk timeUnit gwNowMs trig s pubs subs unsubs sendErr
          arrived).1 ≠ .SUCCESS →
        (pubSubUnsubBulk timeUnit gwNowMs trig s pubs subs unsubs sendErr
          arrived).2.1.subDB = s.subDB)) := by
  constructor
  · intro h1 h2 h3
    subst h1
    subst h2
    subst h3
    rfl
  · intro hne
    have hbe : (pubs.isEmpty && subs.isEmpty && unsubs.isEmpty) = false := by
      rw [Bool.eq_false_iff]
      intro hc
      rw [Bool.and_eq_true, Bool.and_eq_true] at hc
      exact hne ⟨List.isEmpty_iff.1 hc.1.1, List.isEmpty_iff.1 hc.1.2,
        List.isEmpty_iff.1 hc.2⟩
    rcases hu : sendLocalUnchecked timeUnit gwNowMs s
        { type := .PUB_SUB_UNSUB, pubs := pubs,
          subs := subs.map Prod.fst, unsubs := unsubs } false sendErr
        arrived with ⟨err, resp, s1, sent⟩
    have hdb : s1.subDB = s.subDB := by
      have h0 := sendLocalUnchecked_subDB timeUnit gwNowMs s
        { type := .PUB_SUB_UNSUB, pubs := pubs,
          subs := subs.map Prod.fst, unsubs := unsubs } false sendErr
        arrived
      rw [hu] at h0
      exact h0
    have hmem : ∀ m ∈ sent, m.type = .PUB_SUB_UNSUB ∧ m.pubs = pubs ∧
        m.subs = subs.map Prod.fst ∧ m.unsubs = unsubs := by
      intro m hm
      have h0 := sendLocalUnchecked_sent_mem timeUnit gwNowMs s
        { type := .PUB_SUB_UNSUB, pubs := pubs,
          subs := subs.map Prod.fst, unsubs := unsubs } false sendErr
        arrived m (by rw [hu]; exact hm)
      rw [h0]
      exact ⟨rfl, rfl, rfl, rfl⟩
    have hlen : sent.length ≤ 1 := by
      have h0 := sendLocalUnchecked_sent_len timeUnit gwNowMs s
        { type := .PUB_SUB_UNSUB, pubs := pubs,
          subs := subs.map Prod.fst, unsubs := unsubs } false sendErr
        arrived
      rw [hu] at h0
      exact h0
    have hlgw : s.gw.addr ≠ [] → sent.length = 1 := by
      intro hg
      have h0 := sendLocalUnchecked_sent_len_of_gw timeUnit gwNowMs s
        { type := .PUB_SUB_UNSUB, pubs := pubs,
          subs := subs.map Prod.fst, unsubs := unsubs } false sendErr
        arrived hg
      rw [hu] at h0
      exact h0
    by_cases herr : err = .SUCCESS
    · by_cases hfail : resp.type = .FAIL
      · have hbulk : pubSubUnsubBulk timeUnit gwNowMs trig s pubs subs
            unsubs sendErr arrived =
            (.MSG_PROCESSING_FAILED,
              { s1 with msgsFailCnt := s1.msgsFailCnt + 1 }, sent) := by
          simp [pubSubUnsubBulk, hbe, sendLocal, hu, herr, hfail]
        rw [hbulk]
        refine ⟨hmem, hlen, hlgw, ?_, ?_, ?_⟩
        · simp [herr, hu, hfail]
        · intro hc
          exact absurd hc (by simp)
        · intro _
          exact hdb
      · by_cases hok : resp.type = .OK
        · have hbulk : pubSubUnsubBulk timeUnit gwNowMs trig s pubs subs
              unsubs sendErr arrived =
              (.SUCCESS,
                { s1 with
                    msgsFailCnt := 0
                    subDB := subs.foldl
                      (fun db sub => TrieNode.insertT "/" db sub.1 sub.2)
                      (unsubs.foldl
                        (fun db topic => (TrieNode.removeT "/" db topic).2)
                        s1.subDB) }, sent) := by
            simp [pubSubUnsubBulk, hbe, sendLocal, hu, herr, hfail, hok]
          rw [hbulk]
          refine ⟨hmem, hlen, hlgw, ?_, ?_, ?_⟩
          · simp [herr, hu, hok]
          · intro _
            simp [hdb]
          · intro hc
            exact absurd rfl hc
        · have hbulk : pubSubUnsubBulk timeUnit gwNowMs trig s pubs subs
              unsubs sendErr arrived =
              (.MSG_PROCESSING_FAILED, { s1 with msgsFailCnt := 0 },
                sent) := by
            simp [pubSubUnsubBulk, hbe, sendLocal, hu, herr, hfail, hok]
          rw [hbulk]
          refine ⟨hmem, hlen, hlgw, ?_, ?_, ?_⟩
          · simp [herr, hu, hok]
          · intro hc
            exact absurd hc (by simp)
          · intro _
            exact hdb
    · have hbulk : pubSubUnsubBulk timeUnit gwNowMs trig s pubs subs
          unsubs sendErr arrived =
          (err, { s1 with msgsFailCnt := s1.msgsFailCnt + 1 }, sent) := by
        simp [pubSubUnsubBulk, hbe, sendLocal, hu, herr]
      rw [hbulk]
      refine ⟨hmem, hlen, hlgw, ?_, ?_, ?_⟩
      · simp [herr, hu]
      · intro hc
        exact absurd hc herr
      · intro _
        exact hdb

/-- Witness for C5: a bulk call with one subscription against a stored
gateway, acknowledged `OK`: exactly one `PUB_SUB_UNSUB` is sent and the
topic lands in the subscription database. -/
theorem c5_pub_sub_unsub_bulk_witness :
    (pubSubUnsubBulk 500 1000 5
        { msgId := 5, cache := ⟨3, 0, []⟩, gw := { addr := [1] } }
        [] [("t", 7)] [] .SUCCESS
        (some [{ type := .OK, addr := [1] }])).2.2.length = 1 ∧
    (pubSubUnsubBulk 500 1000 5
        { msgId := 5, cache := ⟨3, 0, []⟩, gw := { addr := [1] } }
        [] [("t", 7)] [] .SUCCESS
        (some [{ type := .OK, addr := [1] }])).2.1.subDB =
      TrieNode.insertT "/" TrieNode.root "t" 7 :=
  ⟨((c5_pub_sub_unsub_bulk 500 1000 5
      { msgId := 5, cache := ⟨3, 0, []⟩, gw := { addr := [1] } }
      [] [("t", 7)] [] .SUCCESS
      (some [{ type := .OK, addr := [1] }])).2
      (by simp)).2.2.1 (by simp),
    ((c5_pub_sub_unsub_bulk 500 1000 5
      { msgId := 5, cache := ⟨3, 0, []⟩, gw := { addr := [1] } }
      [] [("t", 7)] [] .SUCCESS
      (some [{ type := .OK, addr := [1] }])).2
      (by simp)).2.2.2.2.1 (by decide)⟩

theorem sendLocalUncheckedBroadcast_sent (timeUnit gwNowMs : Nat)
    (s : ClientState) (msg0 : LocalMsg) (sendErr : ErrCode)
    (collected : List LocalMsg) :
    (sendLocalUncheckedBroadcast timeUnit gwNowMs s msg0 sendErr
      collected).2.2.2 = [(prepareMsg timeUnit gwNowMs s msg0 true).1] := by
  rcases hp : prepareMsg timeUnit gwNowMs s msg0 true with ⟨pm, s1⟩
  simp only [sendLocalUncheckedBroadcast, hp]
  split <;> rfl

theorem processGatewayDiscoveryResponses_sent (timeUnit gwNowMs : Nat)
    (s : ClientState) (msg : LocalMsg) (bestGw : LocalPeer) (channel : Nat)
    (sendErr : ErrCode) (collected : List LocalMsg) :
    (processGatewayDiscoveryResponses timeUnit gwNowMs s msg bestGw channel
        sendErr collected).2.2 =
      [(prepareMsg timeUnit gwNowMs s msg true).1] := by
  rcases hb : sendLocalUncheckedBroadcast timeUnit gwNowMs s msg sendErr
    collected with ⟨e, resps, s1, snt⟩
  have h0 := sendLocalUncheckedBroadcast_sent timeUnit gwNowMs s msg
    sendErr collected
  rw [hb] at h0
  simp only [processGatewayDiscoveryResponses, hb]
  exact h0

theorem discoverGatewayStep_sent_all (timeUnit gwNowMs : Nat)
    (chanOk : Nat → Bool) (sendErrOracle : Nat → ErrCode)
    (respOracle : Nat → List LocalMsg)
    (acc : LocalPeer × ClientState × List LocalMsg) (ch : Nat)
    (h : acc.2.2.all (fun m => decide (m.type = .PROBE_REQ)) = true) :
    ((discoverGatewayStep timeUnit gwNowMs chanOk sendErrOracle respOracle
        acc ch).2.2).all (fun m => decide (m.type = .PROBE_REQ)) = true := by
  unfold discoverGatewayStep
  by_cases hc : chanOk ch
  · simp only [hc, if_pos]
    rw [List.all_append, h,
      processGatewayDiscoveryResponses_sent timeUnit gwNowMs acc.2.1
        { type := .PROBE_REQ } acc.1 ch (sendErrOracle ch) (respOracle ch)]
    rfl
  · simp only [hc, Bool.false_eq_true, if_false]
    exact h

theorem discovery_fold_sent_probe (timeUnit gwNowMs : Nat)
    (chanOk : Nat → Bool) (sendErrOracle : Nat → ErrCode)
    (respOracle : Nat → List LocalMsg) :
    ∀ (chs : List Nat) (acc : LocalPeer × ClientState × List LocalMsg),
      acc.2.2.all (fun m => decide (m.type = .PROBE_REQ)) = true →
      ((chs.foldl
        (discoverGatewayStep timeUnit gwNowMs chanOk sendErrOracle
          respOracle) acc).2.2).all
        (fun m => decide (m.type = .PROBE_REQ)) = true := by
  intro chs
  induction chs with
  | nil => intro acc h; exact h
  | cons ch rest ih =>
      intro acc h
      rw [List.foldl_cons]
      exact ih _ (discoverGatewayStep_sent_all timeUnit gwNowMs chanOk
        sendErrOracle respOracle acc ch h)

/-- C7: the claim says that when `reporting.rssiOnGwDscv` is set and a
probe response carries a finite RSSI, `discoverGateway` publishes a
`PUB_SUB_UNSUB` RSSI report.  The code contains no such publication: the
configuration flag is read nowhere, `processGatewayDiscoveryResponses`
never records `rssi`, and every message a discovery attempt hands to the
local layer is the broadcast `PROBE_REQ` — for every configuration flag
value, channel set, `setChannel` outcome and response set (finite RSSI
included). -/
theorem c7_discovery_never_publishes_rssi_report
    (timeUnit gwNowMs : Nat) (s : ClientState) (channels : List Nat)
    (chanOk : Nat → Bool) (sendErrOracle : Nat → ErrCode)
    (respOracle : Nat → List LocalMsg) (_rssiOnGwDscv : Bool) :
    ((discoverGatewayAttempt timeUnit gwNowMs s channels chanOk
        sendErrOracle respOracle).2.2).all
      (fun m => decide (m.type = .PROBE_REQ)) = true := by
  simp only [discoverGatewayAttempt]
  split
  · split <;>
    · show ((processGatewayDiscoveryResponses timeUnit gwNowMs
          { s with ignoreInvalidMsgTs := true }
          { type := .PROBE_REQ } {} 0 (sendErrOracle 0)
          (respOracle 0)).2.2).all
        (fun m => decide (m.type = .PROBE_REQ)) = true
      rw [processGatewayDiscoveryResponses_sent]
      rfl
  · split <;>
    · show ((channels.foldl
          (discoverGatewayStep timeUnit gwNowMs chanOk sendErrOracle
            respOracle)
          (({} : LocalPeer), { s with ignoreInvalidMsgTs := true },
            [])).2.2).all
        (fun m => decide (m.type = .PROBE_REQ)) = true
      exact discovery_fold_sent_probe timeUnit gwNowMs chanOk
        sendErrOracle respOracle channels
        (({} : LocalPeer), { s with ignoreInvalidMsgTs := true }, []) rfl

/-- Witness for C2 at a concrete cache: `maxAge = 2`, empty cache,
address `[1]`, id `5`; the insert succeeds and a re-insert succeeds again
after `maxAge + 1 = 3` ticks. -/
theorem c2_msg_id_cache_lifecycle_witness :
    ((⟨2, 0, []⟩ : LocalMsgIdCache).insert [1] 5).1 = true ∧
    (((LocalMsgIdCache.tick)^[3]
      ((⟨2, 0, []⟩ : LocalMsgIdCache).insert [1] 5).2).insert [1] 5).1
        = true :=
  ⟨((c2_msg_id_cache_lifecycle ⟨2, 0, []⟩ [1] 5
      (by simp [LocalMsgIdCache.WFc])).2.1 (by decide)).1,
    ((c2_msg_id_cache_lifecycle ⟨2, 0, []⟩ [1] 5
      (by simp [LocalMsgIdCache.WFc])).2.2.2.2 (by decide)).2⟩

end Kvik
